import Mathlib

/-!
Verification development for the trading strategy engine
`src/strategy/adaptive_zero_lag_ema.py` of the `dinheiro` repository.

The Python class `AdaptiveZeroLagEMA` is shallowly embedded below.
Python floats are modelled as rationals (`ℚ`); the two `float('inf')`
sentinels that the source assigns to `highest_price` / `lowest_price`
are modelled by an extended-rational type `XQ`.

The two instantaneous-frequency estimators (`_calc_iq_ifm`,
`_calc_cosine_ifm`) use `math.atan` / `math.sqrt`, which have no
computable rational counterpart; their whole effect on the rest of the
engine is the per-bar integer `Period` (lines 719-736 of the source).
`next` is therefore parametrised by an arbitrary oracle
`step3 : I → ℚ → I × ℕ` standing for that block (indicator state update
and resulting `Period`); every theorem below is proved for every such
oracle, hence in particular for the real estimators.  None of the
verified properties depends on the value of `Period`.
-/

set_option maxRecDepth 4000

namespace Dinheiro

/-- Extended rational: `fin q` models an ordinary Python float, `inf` and
`ninf` model `float('inf')` / `float('-inf')`.  The source stores
`float('inf')` in `lowest_price` (in `_reset_short`) and in
`highest_price` (on a short entry). -/
inductive XQ where
  | ninf : XQ
  | fin : ℚ → XQ
  | inf : XQ
deriving DecidableEq

/-- Python `max(x, b)` with extended `x` and float `b`. -/
def XQ.maxQ : XQ → ℚ → XQ
  | .ninf, b => .fin b
  | .fin a, b => .fin (max a b)
  | .inf, _ => .inf

/-- Python `min(x, b)` with extended `x` and float `b`. -/
def XQ.minQ : XQ → ℚ → XQ
  | .ninf, _ => .ninf
  | .fin a, b => .fin (min a b)
  | .inf, b => .fin b

/-- Python `x - b`. -/
def XQ.subQ : XQ → ℚ → XQ
  | .ninf, _ => .ninf
  | .fin a, b => .fin (a - b)
  | .inf, _ => .inf

/-- Python `x + b`. -/
def XQ.addQ : XQ → ℚ → XQ
  | .ninf, _ => .ninf
  | .fin a, b => .fin (a + b)
  | .inf, _ => .inf

/-- Python `b - x` (so `b - inf = -inf`). -/
def XQ.rsubQ (b : ℚ) : XQ → XQ
  | .ninf => .inf
  | .fin a => .fin (b - a)
  | .inf => .ninf

/-- Python `x / b`.  For infinite `x` this matches Python when `b > 0`
(the engine's positive `tick_size`); Python flips the sign for `b < 0`
and raises for `b = 0` — states never reached by the engine. -/
def XQ.divQ : XQ → ℚ → XQ
  | .ninf, _ => .ninf
  | .fin a, b => .fin (a / b)
  | .inf, _ => .inf

/-- Python `x >= b`. -/
def XQ.geQ : XQ → ℚ → Bool
  | .ninf, _ => false
  | .fin a, b => decide (b ≤ a)
  | .inf, _ => true

/-- Python `b <= x` (the long-side stop-touch test `low <= stop`). -/
def XQ.leQ (b : ℚ) : XQ → Bool
  | .ninf => false
  | .fin a => decide (b ≤ a)
  | .inf => true

/-- Python `b >= x` (the short-side stop-touch test `high >= stop`). -/
def XQ.geQ' (b : ℚ) : XQ → Bool
  | .ninf => true
  | .fin a => decide (a ≤ b)
  | .inf => false

/-- Python `min(x, b)` coerced to a float, as used for the long exit fill
price.  `min(inf, b) = b` exactly as in Python; the `ninf` row is
unreachable (stop prices are never `-inf`). -/
def XQ.minTo : XQ → ℚ → ℚ
  | .ninf, b => b
  | .fin a, b => min a b
  | .inf, b => b

/-- Python `max(x, b)` coerced to a float, as used for the short exit fill
price.  The `inf` row is unreachable (a scheduled short exit stores a
finite stop). -/
def XQ.maxTo : XQ → ℚ → ℚ
  | .ninf, b => b
  | .fin a, b => max a b
  | .inf, b => b

/-- Order on extended rationals (used to state extremum monotonicity). -/
def XQ.ble : XQ → XQ → Bool
  | .ninf, _ => true
  | .fin _, .ninf => false
  | .fin a, .fin b => decide (a ≤ b)
  | .fin _, .inf => true
  | .inf, .inf => true
  | .inf, .ninf => false
  | .inf, .fin _ => false

/-- Values of the Python string field `exit_scheduled_side`:
`""`, `"long"`, `"short"`. -/
inductive Side where
  | none : Side
  | long : Side
  | short : Side
deriving DecidableEq, BEq

/-- Values of the Python exit-reason strings: `""`, `"SL"`, `"TRAIL"`,
`"REVERSAL"`. -/
inductive Reason where
  | none : Reason
  | SL : Reason
  | TRAIL : Reason
  | REVERSAL : Reason
deriving DecidableEq, BEq

/-- One OHLCV candle as consumed by `next` (`candle['open']` etc.).
`ts` models the opaque timestamp, `idx` the `candle.get('index', 0)`
field (used only in log output in the source). -/
structure Candle where
  open_p : ℚ
  high : ℚ
  low : ℚ
  close : ℚ
  ts : ℤ
  idx : ℤ
deriving DecidableEq

/-- Trade events returned by `next` (the Python action dicts).  `buy` /
`sell` are the `"BUY"` / `"SELL"` entry dicts, `exitLong` / `exitShort`
the `"EXIT_LONG"` / `"EXIT_SHORT"` dicts (which additionally carry a
realized pnl and an exit reason). -/
inductive Action where
  | buy (qty price balance : ℚ) (ts : ℤ)
  | sell (qty price balance : ℚ) (ts : ℤ)
  | exitLong (price qty pnl balance : ℚ) (ts : ℤ) (reason : Reason)
  | exitShort (price qty pnl balance : ℚ) (ts : ℤ) (reason : Reason)
deriving DecidableEq, BEq

def Action.isExit : Action → Bool
  | .exitLong _ _ _ _ _ _ => true
  | .exitShort _ _ _ _ _ _ => true
  | _ => false

def Action.isBuy : Action → Bool
  | .buy _ _ _ _ => true
  | _ => false

def Action.isSell : Action → Bool
  | .sell _ _ _ _ => true
  | _ => false

/-- An `EXIT_LONG` event produced by `_execute_scheduled_exit`
(exit reason `SL` or `TRAIL`, never `REVERSAL`). -/
def Action.isStopExitLong : Action → Bool
  | .exitLong _ _ _ _ _ r => r == Reason.SL || r == Reason.TRAIL
  | _ => false

/-- An `EXIT_SHORT` event produced by `_execute_scheduled_exit`. -/
def Action.isStopExitShort : Action → Bool
  | .exitShort _ _ _ _ _ r => r == Reason.SL || r == Reason.TRAIL
  | _ => false

def Action.balanceOf : Action → ℚ
  | .buy _ _ b _ => b
  | .sell _ _ b _ => b
  | .exitLong _ _ _ b _ _ => b
  | .exitShort _ _ _ b _ _ => b

def Action.pnlOf : Action → ℚ
  | .buy _ _ _ _ => 0
  | .sell _ _ _ _ => 0
  | .exitLong _ _ p _ _ _ => p
  | .exitShort _ _ p _ _ _ => p

/-- Configuration and mutable state of the Python dataclass
`AdaptiveZeroLagEMA`.  All float fields are rationals; the integer
configuration fields (`fixed_sl_points`, `fixed_tp_points`,
`trail_offset`, `max_lots`) are kept as rationals since the source only
ever uses them in float arithmetic.  The IFM buffers are collected in
the abstract component `ifm : I` (see the module docstring). -/
structure AdaptiveZeroLagEMA (I : Type) where
  threshold : ℚ := 0
  fixed_sl_points : ℚ := 2000
  fixed_tp_points : ℚ := 55
  trail_offset : ℚ := 15
  risk_percent : ℚ := 1/100
  tick_size : ℚ := 1/100
  initial_capital : ℚ := 1000
  max_lots : ℚ := 100
  warmup_bars : ℕ := 300
  ifm : I
  EMA : ℚ := 0
  EC : ℚ := 0
  LeastError : ℚ := 0
  BestGain : ℚ := 0
  Period : ℕ := 20
  pending_buy : Bool := false
  pending_sell : Bool := false
  buy_signal_prev : Bool := false
  sell_signal_prev : Bool := false
  entry_scheduled_long : Bool := false
  entry_scheduled_short : Bool := false
  exit_scheduled : Bool := false
  exit_scheduled_side : Side := Side.none
  exit_scheduled_reason : Reason := Reason.none
  position_size : ℚ := 0
  position_avg_price : ℚ := 0
  net_profit : ℚ := 0
  highest_price : XQ := XQ.fin 0
  lowest_price : XQ := XQ.fin 0
  trailing_active : Bool := false
  exit_active : Bool := false
  stop_price : XQ := XQ.fin 0
  bar_count : ℕ := 0
  balance : ℚ := 1000

/-- `GAIN_LIMIT = 900` from the source module header. -/
def GAIN_LIMIT : ℕ := 900

/-- The gain grid indices of `for i in range(-GAIN_LIMIT, GAIN_LIMIT + 1)`:
the integers −900, …, 900 (1801 candidates; the gains are `i/10`,
i.e. −90.0 … +90.0 in steps of 0.1). -/
def gainIndices : List ℤ :=
  (List.range (2 * GAIN_LIMIT + 1)).map (fun (j : ℕ) => (j : ℤ) - (GAIN_LIMIT : ℤ))

/-- `alpha = 2.0 / (period + 1)`. -/
def alphaOf (period : ℕ) : ℚ := 2 / ((period : ℚ) + 1)

/-- `ema = alpha * src + (1 - alpha) * ema_prev`. -/
def emaNext (alpha src ema_prev : ℚ) : ℚ := alpha * src + (1 - alpha) * ema_prev

/-- Candidate EC for gain `g`:
`alpha * (ema + g * (src - ec_prev)) + (1 - alpha) * ec_prev`.
Every candidate uses the same frozen `ec_prev` (the previous bar's EC). -/
def candEC (alpha ema src ec_prev g : ℚ) : ℚ :=
  alpha * (ema + g * (src - ec_prev)) + (1 - alpha) * ec_prev

/-- Residual `abs(src - EC_candidate)` of a gain candidate. -/
def candResidual (alpha ema src ec_prev g : ℚ) : ℚ :=
  |src - candEC alpha ema src ec_prev g|

/-- One iteration of the gain-search loop body: compute the candidate's
residual against the frozen `ec_prev` and keep it when strictly smaller
than the current `LeastError`. -/
def gainStep (alpha ema src ec_prev : ℚ) (st : ℚ × ℚ) (i : ℤ) : ℚ × ℚ :=
  let g : ℚ := (i : ℚ) / 10
  let e := candResidual alpha ema src ec_prev g
  if e < st.1 then (e, g) else st

/-- The brute-force gain search of `_calc_zero_lag_ema`: fold over the
gain grid keeping `(LeastError, BestGain)`, starting from the source's
initialisation `le = 1_000_000.0`, `bg = 0.0`. -/
def gainLoop (alpha ema src ec_prev : ℚ) : ℚ × ℚ :=
  gainIndices.foldl (gainStep alpha ema src ec_prev) (1000000, 0)

/-- `_calc_zero_lag_ema(self, src, period)`: EMA update, gain search,
final EC recomputation with the best gain.  Returns the updated state
together with `(ema_prev, ec_prev, ema, ec)` exactly as the source
returns them for the crossover computation. -/
def calc_zero_lag_ema {I : Type} (s : AdaptiveZeroLagEMA I) (src : ℚ) (period : ℕ) :
    AdaptiveZeroLagEMA I × (ℚ × ℚ × ℚ × ℚ) :=
  let alpha := alphaOf period
  let ema_prev := s.EMA
  let ec_prev := s.EC
  let ema := emaNext alpha src ema_prev
  let le := (gainLoop alpha ema src ec_prev).1
  let bg := (gainLoop alpha ema src ec_prev).2
  let ec := candEC alpha ema src ec_prev bg
  ({ s with EMA := ema, EC := ec, LeastError := le, BestGain := bg },
   (ema_prev, ec_prev, ema, ec))

/-- Definitional shape of `_calc_zero_lag_ema`: state update and
returned quadruple, written out explicitly. -/
theorem calc_zero_lag_ema_eq {I : Type} (s : AdaptiveZeroLagEMA I) (src : ℚ) (period : ℕ) :
    calc_zero_lag_ema s src period
      = ({ s with EMA := emaNext (alphaOf period) src s.EMA,
                  EC := candEC (alphaOf period) (emaNext (alphaOf period) src s.EMA) src s.EC
                          (gainLoop (alphaOf period) (emaNext (alphaOf period) src s.EMA)
                            src s.EC).2,
                  LeastError := (gainLoop (alphaOf period) (emaNext (alphaOf period) src s.EMA)
                            src s.EC).1,
                  BestGain := (gainLoop (alphaOf period) (emaNext (alphaOf period) src s.EMA)
                            src s.EC).2 },
         (s.EMA, s.EC, emaNext (alphaOf period) src s.EMA,
          candEC (alphaOf period) (emaNext (alphaOf period) src s.EMA) src s.EC
            (gainLoop (alphaOf period) (emaNext (alphaOf period) src s.EMA) src s.EC).2)) :=
  rfl

/-- `_reset_long(self)`. -/
def reset_long {I : Type} (s : AdaptiveZeroLagEMA I) : AdaptiveZeroLagEMA I :=
  { s with position_size := 0, position_avg_price := 0, highest_price := XQ.fin 0,
           trailing_active := false, exit_active := false, exit_scheduled := false,
           exit_scheduled_side := Side.none, exit_scheduled_reason := Reason.none }

/-- `_reset_short(self)`; note `lowest_price = float('inf')`. -/
def reset_short {I : Type} (s : AdaptiveZeroLagEMA I) : AdaptiveZeroLagEMA I :=
  { s with position_size := 0, position_avg_price := 0, lowest_price := XQ.inf,
           trailing_active := false, exit_active := false, exit_scheduled := false,
           exit_scheduled_side := Side.none, exit_scheduled_reason := Reason.none }

/-- `_check_stop_touched(self, candle)`: updates the favorable extremum,
possibly activates trailing, recomputes the stop level, and schedules an
exit when the candle's low/high breaches it. -/
def check_stop_touched {I : Type} (s : AdaptiveZeroLagEMA I) (c : Candle) :
    AdaptiveZeroLagEMA I × Bool :=
  if s.position_size = 0 ∨ s.exit_active = false ∨ s.exit_scheduled = true then
    (s, false)
  else if 0 < s.position_size then
    let hp := s.highest_price.maxQ c.high
    let profit_ticks := (hp.subQ s.position_avg_price).divQ s.tick_size
    let trailing := s.trailing_active || profit_ticks.geQ s.fixed_tp_points
    let stop := if trailing = true then hp.subQ (s.trail_offset * s.tick_size)
                else XQ.fin (s.position_avg_price - s.fixed_sl_points * s.tick_size)
    let s1 := { s with highest_price := hp, trailing_active := trailing, stop_price := stop }
    if XQ.leQ c.low stop = true then
      ({ s1 with exit_scheduled := true, exit_scheduled_side := Side.long,
                 exit_scheduled_reason := if trailing = true then Reason.TRAIL else Reason.SL },
       true)
    else (s1, false)
  else if s.position_size < 0 then
    let lp := s.lowest_price.minQ c.low
    let profit_ticks := (XQ.rsubQ s.position_avg_price lp).divQ s.tick_size
    let trailing := s.trailing_active || profit_ticks.geQ s.fixed_tp_points
    let stop := if trailing = true then lp.addQ (s.trail_offset * s.tick_size)
                else XQ.fin (s.position_avg_price + s.fixed_sl_points * s.tick_size)
    let s1 := { s with lowest_price := lp, trailing_active := trailing, stop_price := stop }
    if XQ.geQ' c.high stop = true then
      ({ s1 with exit_scheduled := true, exit_scheduled_side := Side.short,
                 exit_scheduled_reason := if trailing = true then Reason.TRAIL else Reason.SL },
       true)
    else (s1, false)
  else (s, false)

/-- `_execute_scheduled_exit(self, open_p, ts)`: fill at the stop price,
or at the bar's open if the open gaps through the stop — `min` for a
long, `max` for a short — realizing the pnl from that fill price. -/
def execute_scheduled_exit {I : Type} (s : AdaptiveZeroLagEMA I) (open_p : ℚ) (ts : ℤ) :
    AdaptiveZeroLagEMA I × Option Action :=
  if s.exit_scheduled = false then (s, Option.none)
  else if s.exit_scheduled_side = Side.long then
    let exec_price := s.stop_price.minTo open_p
    let qty := s.position_size
    let pnl := (exec_price - s.position_avg_price) * qty
    let np := s.net_profit + pnl
    let bal := s.initial_capital + np
    (reset_long { s with net_profit := np, balance := bal },
     Option.some (Action.exitLong exec_price qty pnl bal ts s.exit_scheduled_reason))
  else if s.exit_scheduled_side = Side.short then
    let exec_price := s.stop_price.maxTo open_p
    let qty := |s.position_size|
    let pnl := (s.position_avg_price - exec_price) * qty
    let np := s.net_profit + pnl
    let bal := s.initial_capital + np
    (reset_short { s with net_profit := np, balance := bal },
     Option.some (Action.exitShort exec_price qty pnl bal ts s.exit_scheduled_reason))
  else (s, Option.none)

/-- `_close_for_reversal(self, open_p, ts)`: close the existing position
at the bar's open price (cancelling any scheduled exit). -/
def close_for_reversal {I : Type} (s : AdaptiveZeroLagEMA I) (open_p : ℚ) (ts : ℤ) :
    AdaptiveZeroLagEMA I × Option Action :=
  if s.position_size = 0 then (s, Option.none)
  else
    let s0 : AdaptiveZeroLagEMA I :=
      { s with exit_scheduled := false, exit_scheduled_side := Side.none }
    if 0 < s0.position_size then
      let qty := s0.position_size
      let pnl := (open_p - s0.position_avg_price) * qty
      let np := s0.net_profit + pnl
      let bal := s0.initial_capital + np
      (reset_long { s0 with net_profit := np, balance := bal },
       Option.some (Action.exitLong open_p qty pnl bal ts Reason.REVERSAL))
    else
      let qty := |s0.position_size|
      let pnl := (s0.position_avg_price - open_p) * qty
      let np := s0.net_profit + pnl
      let bal := s0.initial_capital + np
      (reset_short { s0 with net_profit := np, balance := bal },
       Option.some (Action.exitShort open_p qty pnl bal ts Reason.REVERSAL))

/-- `_calc_lots(self)`. -/
def calc_lots {I : Type} (s : AdaptiveZeroLagEMA I) : ℚ :=
  let bal := s.initial_capital + s.net_profit
  let sl_usdt := s.fixed_sl_points * s.tick_size
  if sl_usdt ≤ 0 then 0
  else min (s.risk_percent * bal / sl_usdt) s.max_lots

/-- The entry blocks of STEP 2 (lines 657-710): `entry_long` /
`entry_short` are the snapshots taken at the top of the open phase,
`s1` the state after the reversal/exit step. -/
def entry_phase {I : Type} (entry_long entry_short : Bool) (s1 : AdaptiveZeroLagEMA I)
    (open_p : ℚ) (ts : ℤ) : AdaptiveZeroLagEMA I × List Action :=
  if entry_long = true ∧ s1.position_size ≤ 0 then
    let lots := calc_lots s1
    if 0 < lots then
      ({ s1 with position_size := lots, position_avg_price := open_p,
                 highest_price := XQ.fin open_p, lowest_price := XQ.fin 0,
                 trailing_active := false, exit_active := true, exit_scheduled := false,
                 stop_price := XQ.fin (open_p - s1.fixed_sl_points * s1.tick_size),
                 balance := s1.initial_capital + s1.net_profit,
                 pending_sell := false, entry_scheduled_long := false },
       [Action.buy lots open_p (s1.initial_capital + s1.net_profit) ts])
    else ({ s1 with entry_scheduled_long := false }, [])
  else if entry_short = true ∧ 0 ≤ s1.position_size then
    let lots := calc_lots s1
    if 0 < lots then
      ({ s1 with position_size := -lots, position_avg_price := open_p,
                 lowest_price := XQ.fin open_p, highest_price := XQ.inf,
                 trailing_active := false, exit_active := true, exit_scheduled := false,
                 stop_price := XQ.fin (open_p + s1.fixed_sl_points * s1.tick_size),
                 balance := s1.initial_capital + s1.net_profit,
                 pending_buy := false, entry_scheduled_short := false },
       [Action.sell lots open_p (s1.initial_capital + s1.net_profit) ts])
    else ({ s1 with entry_scheduled_short := false }, [])
  else (s1, [])

/-- STEP 2 of `next` (the "OPEN" phase, lines 634-710): execute scheduled
orders against the current bar's open.  `entry_long` / `entry_short`
are snapshots of the scheduled-entry flags, exactly as in the source. -/
def open_phase {I : Type} (s : AdaptiveZeroLagEMA I) (open_p : ℚ) (ts : ℤ) :
    AdaptiveZeroLagEMA I × List Action :=
  let entry_long := s.entry_scheduled_long
  let entry_short := s.entry_scheduled_short
  let step_a :=
    if entry_long = true ∧ s.position_size < 0 then
      close_for_reversal s open_p ts
    else if entry_short = true ∧ 0 < s.position_size then
      close_for_reversal s open_p ts
    else if s.exit_scheduled = true ∧ s.position_size ≠ 0 then
      execute_scheduled_exit s open_p ts
    else (s, Option.none)
  let step_b := entry_phase entry_long entry_short step_a.1 open_p ts
  (step_b.1, step_a.2.toList ++ step_b.2)

/-- STEP 1 of `next` (lines 601-612): increment the bar counter and latch
last bar's raw signals into the persistent pending flags. -/
def propagate_pending {I : Type} (s : AdaptiveZeroLagEMA I) : AdaptiveZeroLagEMA I :=
  { s with bar_count := s.bar_count + 1,
           pending_buy := s.pending_buy || s.buy_signal_prev,
           pending_sell := s.pending_sell || s.sell_signal_prev }

/-- The raw crossover of STEP 4 (line 744):
`buy_signal = (ec_prev < ema_prev) and (ec > ema)` — strict `<` on the
previous-bar side (the source's "BUG #2" correction). -/
def buy_signal_raw (ec_prev ema_prev ec ema : ℚ) : Bool :=
  decide (ec_prev < ema_prev) && decide (ema < ec)

/-- The raw crossunder of STEP 4 (line 745):
`sell_signal = (ec_prev > ema_prev) and (ec < ema)`. -/
def sell_signal_raw (ec_prev ema_prev ec ema : ℚ) : Bool :=
  decide (ema_prev < ec_prev) && decide (ec < ema)

/-- STEP 6 of `next` outside warmup (lines 770-789): convert pending
signals into scheduled entries, unless an exit is scheduled (in which
case the pendings persist untouched). -/
def schedule_entries {I : Type} (s : AdaptiveZeroLagEMA I) : AdaptiveZeroLagEMA I :=
  if s.exit_scheduled = true then s
  else if s.pending_buy = true ∧ s.position_size ≤ 0 then
    { s with entry_scheduled_long := true, entry_scheduled_short := false,
             pending_buy := false }
  else if s.pending_sell = true ∧ 0 ≤ s.position_size then
    { s with entry_scheduled_short := true, entry_scheduled_long := false,
             pending_sell := false }
  else s

/-- STEP 6 of `next` during warmup (lines 790-795): consume pendings
without scheduling anything. -/
def warmup_clear_pending {I : Type} (s : AdaptiveZeroLagEMA I) : AdaptiveZeroLagEMA I :=
  let s1 := if s.pending_buy = true ∧ s.position_size ≤ 0 then
              { s with pending_buy := false } else s
  if s1.pending_sell = true ∧ 0 ≤ s1.position_size then
    { s1 with pending_sell := false } else s1

/-- STEPs 3-6 of `next` (the "CLOSE" phase, lines 718-799): indicator
update (`step3` abstracts lines 720-736), zero-lag EMA, crossover
signals with the `LeastError` threshold filter, stop-touch check, entry
scheduling, and latching of the raw signals for the next bar. -/
def zlema_input {I : Type} (step3 : I → ℚ → I × ℕ) (s : AdaptiveZeroLagEMA I)
    (src : ℚ) : AdaptiveZeroLagEMA I :=
  { s with ifm := (step3 s.ifm src).1, Period := (step3 s.ifm src).2 }

def close_phase {I : Type} (step3 : I → ℚ → I × ℕ) (s : AdaptiveZeroLagEMA I)
    (c : Candle) (in_warmup : Bool) : AdaptiveZeroLagEMA I :=
  let src := c.close
  let sA := zlema_input step3 s src
  let z := calc_zero_lag_ema sA src sA.Period
  let sB := z.1
  let ema_prev := z.2.1
  let ec_prev := z.2.2.1
  let ema := z.2.2.2.1
  let ec := z.2.2.2.2
  let err := if src ≠ 0 then 100 * sB.LeastError / src else 0
  let buy_sig := buy_signal_raw ec_prev ema_prev ec ema && decide (sB.threshold < err)
  let sell_sig := sell_signal_raw ec_prev ema_prev ec ema && decide (sB.threshold < err)
  let sC := (check_stop_touched sB c).1
  let sD := if in_warmup = true then warmup_clear_pending sC else schedule_entries sC
  { sD with buy_signal_prev := buy_sig, sell_signal_prev := sell_sig }

/-- `next(self, candle)`: the per-bar entry point.  Returns the updated
state and the list of trade events of this bar. -/
def next {I : Type} (step3 : I → ℚ → I × ℕ) (s : AdaptiveZeroLagEMA I) (c : Candle) :
    AdaptiveZeroLagEMA I × List Action :=
  let s1 := propagate_pending s
  let in_warmup := decide (s1.bar_count ≤ s1.warmup_bars)
  let op :=
    if in_warmup = true then
      ({ s1 with entry_scheduled_long := false, entry_scheduled_short := false },
       ([] : List Action))
    else if 0 < s1.initial_capital + s1.net_profit then
      open_phase s1 c.open_p c.ts
    else (s1, [])
  (close_phase step3 op.1 c in_warmup, op.2)

/-! ## Helper lemmas -/

/-- A `gainStep`-fold yields a lower bound of all visited residuals,
never exceeds its initial value, and is either the initial pair or the
residual/gain pair of one of the visited grid indices. -/
theorem foldl_gainStep_spec (alpha ema src ecp : ℚ) (l : List ℤ) (p : ℚ × ℚ) :
    (∀ i ∈ l, (l.foldl (gainStep alpha ema src ecp) p).1
        ≤ candResidual alpha ema src ecp ((i : ℚ)/10))
  ∧ (l.foldl (gainStep alpha ema src ecp) p).1 ≤ p.1
  ∧ (l.foldl (gainStep alpha ema src ecp) p = p
     ∨ ∃ i ∈ l, l.foldl (gainStep alpha ema src ecp) p
                  = (candResidual alpha ema src ecp ((i : ℚ)/10), (i : ℚ)/10)) := by
  induction l generalizing p with
  | nil => simp
  | cons a t ih =>
    simp only [List.foldl_cons]
    by_cases hfa : candResidual alpha ema src ecp ((a : ℚ)/10) < p.1
    · rw [show gainStep alpha ema src ecp p a
            = (candResidual alpha ema src ecp ((a : ℚ)/10), (a : ℚ)/10) by
          simp only [gainStep]; rw [if_pos hfa]]
      obtain ⟨h1, h2, h3⟩ := ih (candResidual alpha ema src ecp ((a : ℚ)/10), (a : ℚ)/10)
      refine ⟨?_, le_of_lt (lt_of_le_of_lt h2 hfa), ?_⟩
      · intro i hi
        rcases List.mem_cons.mp hi with h | h
        · exact h ▸ h2
        · exact h1 i h
      · rcases h3 with h | ⟨i, hi, h⟩
        · exact Or.inr ⟨a, List.mem_cons_self a t, h⟩
        · exact Or.inr ⟨i, List.mem_cons_of_mem a hi, h⟩
    · rw [show gainStep alpha ema src ecp p a = p by
          simp only [gainStep]; rw [if_neg hfa]]
      obtain ⟨h1, h2, h3⟩ := ih p
      refine ⟨?_, h2, ?_⟩
      · intro i hi
        rcases List.mem_cons.mp hi with h | h
        · exact h ▸ le_trans h2 (le_of_not_lt hfa)
        · exact h1 i h
      · rcases h3 with h | ⟨i, hi, h⟩
        · exact Or.inl h
        · exact Or.inr ⟨i, List.mem_cons_of_mem a hi, h⟩

/-- If no visited residual is strictly below the initial `LeastError`,
a `gainStep`-fold returns the initial pair unchanged. -/
theorem foldl_gainStep_no_update (alpha ema src ecp : ℚ) (l : List ℤ) (p : ℚ × ℚ)
    (h : ∀ i ∈ l, ¬ (candResidual alpha ema src ecp ((i : ℚ)/10) < p.1)) :
    l.foldl (gainStep alpha ema src ecp) p = p := by
  induction l with
  | nil => rfl
  | cons a t ih =>
    simp only [List.foldl_cons]
    rw [show gainStep alpha ema src ecp p a = p by
        simp only [gainStep]; rw [if_neg (h a (List.mem_cons_self a t))]]
    exact ih (fun i hi => h i (List.mem_cons_of_mem a hi))

/-- Characterisation of the gain search: `LeastError` bounds every
candidate residual from below, never exceeds the `1_000_000.0`
initialisation, and `(LeastError, BestGain)` is either the initial pair
or the residual/gain pair of some grid index. -/
theorem gainLoop_spec (alpha ema src ecp : ℚ) :
    (∀ i ∈ gainIndices,
        (gainLoop alpha ema src ecp).1 ≤ candResidual alpha ema src ecp ((i : ℚ)/10))
  ∧ (gainLoop alpha ema src ecp).1 ≤ 1000000
  ∧ (gainLoop alpha ema src ecp = (1000000, 0)
     ∨ ∃ i ∈ gainIndices,
         gainLoop alpha ema src ecp
           = (candResidual alpha ema src ecp ((i : ℚ)/10), (i : ℚ)/10)) :=
  foldl_gainStep_spec alpha ema src ecp gainIndices (1000000, 0)

/-- The gain grid holds exactly the integers from −900 to 900. -/
theorem mem_gainIndices (i : ℤ) : i ∈ gainIndices ↔ -900 ≤ i ∧ i ≤ 900 := by
  unfold gainIndices GAIN_LIMIT
  constructor
  · intro h
    obtain ⟨j, hj, hji⟩ := List.mem_map.mp h
    have hj' := List.mem_range.mp hj
    omega
  · intro h
    refine List.mem_map.mpr ⟨(i + 900).toNat, List.mem_range.mpr ?_, ?_⟩ <;> omega

theorem XQ.ble_refl (x : XQ) : XQ.ble x x = true := by
  cases x <;> simp [XQ.ble]

theorem XQ.ble_maxQ (x : XQ) (b : ℚ) : XQ.ble x (x.maxQ b) = true := by
  cases x <;> simp [XQ.ble, XQ.maxQ, le_max_left]

theorem XQ.minQ_ble (x : XQ) (b : ℚ) : XQ.ble (x.minQ b) x = true := by
  cases x <;> simp [XQ.ble, XQ.minQ, min_le_left]

/-- The non-signal part of `close_phase`: the state as transformed by the
stop-touch check and entry scheduling (the two latched signal flags are
set on top of this, see `close_phase_eq`). -/
def close_phase_core {I : Type} (step3 : I → ℚ → I × ℕ) (s : AdaptiveZeroLagEMA I)
    (c : Candle) (w : Bool) : AdaptiveZeroLagEMA I :=
  if w = true then
    warmup_clear_pending
      ((check_stop_touched (calc_zero_lag_ema (zlema_input step3 s c.close) c.close
          (zlema_input step3 s c.close).Period).1 c).1)
  else
    schedule_entries
      ((check_stop_touched (calc_zero_lag_ema (zlema_input step3 s c.close) c.close
          (zlema_input step3 s c.close).Period).1 c).1)

/-- Every field of the `close_phase` result other than the two latched
signal flags agrees with `close_phase_core`. -/
theorem close_phase_proj {I : Type} (step3 : I → ℚ → I × ℕ) (s : AdaptiveZeroLagEMA I)
    (c : Candle) (w : Bool) :
    (close_phase step3 s c w).entry_scheduled_long
        = (close_phase_core step3 s c w).entry_scheduled_long
  ∧ (close_phase step3 s c w).entry_scheduled_short
        = (close_phase_core step3 s c w).entry_scheduled_short
  ∧ (close_phase step3 s c w).pending_buy = (close_phase_core step3 s c w).pending_buy
  ∧ (close_phase step3 s c w).pending_sell = (close_phase_core step3 s c w).pending_sell
  ∧ (close_phase step3 s c w).exit_scheduled = (close_phase_core step3 s c w).exit_scheduled
  ∧ (close_phase step3 s c w).position_size = (close_phase_core step3 s c w).position_size
  ∧ (close_phase step3 s c w).position_avg_price
        = (close_phase_core step3 s c w).position_avg_price
  ∧ (close_phase step3 s c w).net_profit = (close_phase_core step3 s c w).net_profit
  ∧ (close_phase step3 s c w).balance = (close_phase_core step3 s c w).balance
  ∧ (close_phase step3 s c w).initial_capital
        = (close_phase_core step3 s c w).initial_capital
  ∧ (close_phase step3 s c w).highest_price = (close_phase_core step3 s c w).highest_price
  ∧ (close_phase step3 s c w).lowest_price = (close_phase_core step3 s c w).lowest_price
  ∧ (close_phase step3 s c w).trailing_active
        = (close_phase_core step3 s c w).trailing_active :=
  ⟨rfl, rfl, rfl, rfl, rfl, rfl, rfl, rfl, rfl, rfl, rfl, rfl, rfl⟩

theorem propagate_pending_fields {I : Type} (s : AdaptiveZeroLagEMA I) :
    (propagate_pending s).entry_scheduled_long = s.entry_scheduled_long
  ∧ (propagate_pending s).entry_scheduled_short = s.entry_scheduled_short
  ∧ (propagate_pending s).exit_scheduled = s.exit_scheduled
  ∧ (propagate_pending s).position_size = s.position_size
  ∧ (propagate_pending s).pending_buy = (s.pending_buy || s.buy_signal_prev)
  ∧ (propagate_pending s).pending_sell = (s.pending_sell || s.sell_signal_prev)
  ∧ (propagate_pending s).net_profit = s.net_profit
  ∧ (propagate_pending s).initial_capital = s.initial_capital
  ∧ (propagate_pending s).balance = s.balance
  ∧ (propagate_pending s).position_avg_price = s.position_avg_price
  ∧ (propagate_pending s).highest_price = s.highest_price
  ∧ (propagate_pending s).lowest_price = s.lowest_price
  ∧ (propagate_pending s).trailing_active = s.trailing_active
  ∧ (propagate_pending s).EC = s.EC
  ∧ (propagate_pending s).EMA = s.EMA :=
  ⟨rfl, rfl, rfl, rfl, rfl, rfl, rfl, rfl, rfl, rfl, rfl, rfl, rfl, rfl, rfl⟩

/-- When no order is scheduled, the open phase does nothing. -/
theorem open_phase_noop {I : Type} (s : AdaptiveZeroLagEMA I) (o : ℚ) (t : ℤ)
    (hel : s.entry_scheduled_long = false) (hes : s.entry_scheduled_short = false)
    (hex : s.exit_scheduled = false) :
    open_phase s o t = (s, []) := by
  simp [open_phase, entry_phase, hel, hes, hex]

/-- `next` outside warmup: the open phase runs only on a positive
balance, and the close phase follows. -/
theorem next_unfold {I : Type} (step3 : I → ℚ → I × ℕ) (s : AdaptiveZeroLagEMA I)
    (c : Candle) (hw : s.warmup_bars < s.bar_count + 1) :
    next step3 s c
      = (if 0 < s.initial_capital + s.net_profit then
          (close_phase step3 (open_phase (propagate_pending s) c.open_p c.ts).1 c false,
            (open_phase (propagate_pending s) c.open_p c.ts).2)
        else (close_phase step3 (propagate_pending s) c false, [])) := by
  have hnw : (decide ((propagate_pending s).bar_count
      ≤ (propagate_pending s).warmup_bars)) = false := by
    rw [decide_eq_false_iff_not]
    show ¬ (s.bar_count + 1 ≤ s.warmup_bars)
    omega
  have hic : (propagate_pending s).initial_capital = s.initial_capital := rfl
  have hnp : (propagate_pending s).net_profit = s.net_profit := rfl
  simp only [next, hnw, Bool.false_eq_true, if_false, hic, hnp]
  by_cases hb : 0 < s.initial_capital + s.net_profit
  · rw [if_pos hb, if_pos hb]
  · rw [if_neg hb, if_neg hb]

/-- `next` during warmup: entry flags are cleared and nothing executes. -/
theorem next_unfold_warmup {I : Type} (step3 : I → ℚ → I × ℕ) (s : AdaptiveZeroLagEMA I)
    (c : Candle) (hw : s.bar_count + 1 ≤ s.warmup_bars) :
    next step3 s c
      = (close_phase step3
          { propagate_pending s with entry_scheduled_long := false,
                                     entry_scheduled_short := false } c true, []) := by
  have hnw : (decide ((propagate_pending s).bar_count
      ≤ (propagate_pending s).warmup_bars)) = true := by
    rw [decide_eq_true_eq]
    exact hw
  simp only [next, hnw, if_pos]

/-- The state handed by `_calc_zero_lag_ema` to the stop/scheduling steps
agrees with the incoming state on every non-ZLEMA field. -/
theorem calc_state_fields {I : Type} (s : AdaptiveZeroLagEMA I) (src : ℚ) (period : ℕ) :
    (calc_zero_lag_ema s src period).1.position_size = s.position_size
  ∧ (calc_zero_lag_ema s src period).1.position_avg_price = s.position_avg_price
  ∧ (calc_zero_lag_ema s src period).1.net_profit = s.net_profit
  ∧ (calc_zero_lag_ema s src period).1.balance = s.balance
  ∧ (calc_zero_lag_ema s src period).1.initial_capital = s.initial_capital
  ∧ (calc_zero_lag_ema s src period).1.exit_scheduled = s.exit_scheduled
  ∧ (calc_zero_lag_ema s src period).1.exit_active = s.exit_active
  ∧ (calc_zero_lag_ema s src period).1.highest_price = s.highest_price
  ∧ (calc_zero_lag_ema s src period).1.lowest_price = s.lowest_price
  ∧ (calc_zero_lag_ema s src period).1.trailing_active = s.trailing_active
  ∧ (calc_zero_lag_ema s src period).1.pending_buy = s.pending_buy
  ∧ (calc_zero_lag_ema s src period).1.pending_sell = s.pending_sell
  ∧ (calc_zero_lag_ema s src period).1.entry_scheduled_long = s.entry_scheduled_long
  ∧ (calc_zero_lag_ema s src period).1.entry_scheduled_short = s.entry_scheduled_short
  ∧ (calc_zero_lag_ema s src period).1.exit_scheduled_side = s.exit_scheduled_side :=
  ⟨rfl, rfl, rfl, rfl, rfl, rfl, rfl, rfl, rfl, rfl, rfl, rfl, rfl, rfl, rfl⟩

theorem zlema_input_fields {I : Type} (step3 : I → ℚ → I × ℕ) (s : AdaptiveZeroLagEMA I)
    (src : ℚ) :
    (zlema_input step3 s src).position_size = s.position_size
  ∧ (zlema_input step3 s src).position_avg_price = s.position_avg_price
  ∧ (zlema_input step3 s src).net_profit = s.net_profit
  ∧ (zlema_input step3 s src).balance = s.balance
  ∧ (zlema_input step3 s src).initial_capital = s.initial_capital
  ∧ (zlema_input step3 s src).exit_scheduled = s.exit_scheduled
  ∧ (zlema_input step3 s src).exit_active = s.exit_active
  ∧ (zlema_input step3 s src).highest_price = s.highest_price
  ∧ (zlema_input step3 s src).lowest_price = s.lowest_price
  ∧ (zlema_input step3 s src).trailing_active = s.trailing_active
  ∧ (zlema_input step3 s src).pending_buy = s.pending_buy
  ∧ (zlema_input step3 s src).pending_sell = s.pending_sell
  ∧ (zlema_input step3 s src).entry_scheduled_long = s.entry_scheduled_long
  ∧ (zlema_input step3 s src).entry_scheduled_short = s.entry_scheduled_short
  ∧ (zlema_input step3 s src).exit_scheduled_side = s.exit_scheduled_side :=
  ⟨rfl, rfl, rfl, rfl, rfl, rfl, rfl, rfl, rfl, rfl, rfl, rfl, rfl, rfl, rfl⟩

/-- The stop-touch check never changes the position, pnl, balance,
pending or entry flags. -/
theorem check_stop_touched_preserves {I : Type} (t : AdaptiveZeroLagEMA I) (c : Candle) :
    (check_stop_touched t c).1.position_size = t.position_size
  ∧ (check_stop_touched t c).1.position_avg_price = t.position_avg_price
  ∧ (check_stop_touched t c).1.net_profit = t.net_profit
  ∧ (check_stop_touched t c).1.balance = t.balance
  ∧ (check_stop_touched t c).1.initial_capital = t.initial_capital
  ∧ (check_stop_touched t c).1.pending_buy = t.pending_buy
  ∧ (check_stop_touched t c).1.pending_sell = t.pending_sell
  ∧ (check_stop_touched t c).1.entry_scheduled_long = t.entry_scheduled_long
  ∧ (check_stop_touched t c).1.entry_scheduled_short = t.entry_scheduled_short := by
  unfold check_stop_touched
  split_ifs <;> simp [apply_ite]

/-- The stop-touch check only ratchets the extremums and never
deactivates trailing. -/
theorem check_stop_touched_ratchet {I : Type} (t : AdaptiveZeroLagEMA I) (c : Candle) :
    XQ.ble t.highest_price (check_stop_touched t c).1.highest_price = true
  ∧ XQ.ble (check_stop_touched t c).1.lowest_price t.lowest_price = true
  ∧ (t.trailing_active = true → (check_stop_touched t c).1.trailing_active = true) := by
  unfold check_stop_touched
  split_ifs <;> simp_all [apply_ite, XQ.ble_refl, XQ.ble_maxQ, XQ.minQ_ble]

/-- With a flat position, an inactive exit, or an already scheduled exit,
the stop-touch check does nothing. -/
theorem check_stop_touched_skip {I : Type} (t : AdaptiveZeroLagEMA I) (c : Candle)
    (h : t.position_size = 0 ∨ t.exit_active = false ∨ t.exit_scheduled = true) :
    check_stop_touched t c = (t, false) := by
  unfold check_stop_touched
  rw [if_pos h]

/-- Scheduled exits are never cleared by the stop-touch check. -/
theorem check_stop_touched_exit_persists {I : Type} (t : AdaptiveZeroLagEMA I) (c : Candle)
    (hex : t.exit_scheduled = true) :
    (check_stop_touched t c).1.exit_scheduled = true := by
  rw [check_stop_touched_skip t c (Or.inr (Or.inr hex))]
  exact hex

/-- Entry scheduling touches only the pending and scheduled-entry flags. -/
theorem schedule_entries_preserves {I : Type} (t : AdaptiveZeroLagEMA I) :
    (schedule_entries t).position_size = t.position_size
  ∧ (schedule_entries t).position_avg_price = t.position_avg_price
  ∧ (schedule_entries t).net_profit = t.net_profit
  ∧ (schedule_entries t).balance = t.balance
  ∧ (schedule_entries t).initial_capital = t.initial_capital
  ∧ (schedule_entries t).highest_price = t.highest_price
  ∧ (schedule_entries t).lowest_price = t.lowest_price
  ∧ (schedule_entries t).trailing_active = t.trailing_active
  ∧ (schedule_entries t).exit_scheduled = t.exit_scheduled := by
  unfold schedule_entries
  split_ifs <;> simp [apply_ite]

theorem warmup_clear_pending_preserves {I : Type} (t : AdaptiveZeroLagEMA I) :
    (warmup_clear_pending t).position_size = t.position_size
  ∧ (warmup_clear_pending t).position_avg_price = t.position_avg_price
  ∧ (warmup_clear_pending t).net_profit = t.net_profit
  ∧ (warmup_clear_pending t).balance = t.balance
  ∧ (warmup_clear_pending t).initial_capital = t.initial_capital
  ∧ (warmup_clear_pending t).highest_price = t.highest_price
  ∧ (warmup_clear_pending t).lowest_price = t.lowest_price
  ∧ (warmup_clear_pending t).trailing_active = t.trailing_active
  ∧ (warmup_clear_pending t).exit_scheduled = t.exit_scheduled := by
  unfold warmup_clear_pending
  split_ifs <;> simp [apply_ite]

/-- The close phase never touches the position, the realized pnl or the
account balance. -/
theorem close_phase_core_preserves {I : Type} (step3 : I → ℚ → I × ℕ)
    (s : AdaptiveZeroLagEMA I) (c : Candle) (w : Bool) :
    (close_phase_core step3 s c w).position_size = s.position_size
  ∧ (close_phase_core step3 s c w).position_avg_price = s.position_avg_price
  ∧ (close_phase_core step3 s c w).net_profit = s.net_profit
  ∧ (close_phase_core step3 s c w).balance = s.balance
  ∧ (close_phase_core step3 s c w).initial_capital = s.initial_capital := by
  have hz := zlema_input_fields step3 s c.close
  have hc := calc_state_fields (zlema_input step3 s c.close) c.close
      (zlema_input step3 s c.close).Period
  have hk := check_stop_touched_preserves
      (calc_zero_lag_ema (zlema_input step3 s c.close) c.close
        (zlema_input step3 s c.close).Period).1 c
  unfold close_phase_core
  split_ifs
  · have hw := warmup_clear_pending_preserves
        ((check_stop_touched (calc_zero_lag_ema (zlema_input step3 s c.close) c.close
          (zlema_input step3 s c.close).Period).1 c).1)
    exact ⟨by rw [hw.1, hk.1, hc.1, hz.1],
           by rw [hw.2.1, hk.2.1, hc.2.1, hz.2.1],
           by rw [hw.2.2.1, hk.2.2.1, hc.2.2.1, hz.2.2.1],
           by rw [hw.2.2.2.1, hk.2.2.2.1, hc.2.2.2.1, hz.2.2.2.1],
           by rw [hw.2.2.2.2.1, hk.2.2.2.2.1, hc.2.2.2.2.1, hz.2.2.2.2.1]⟩
  · have hw := schedule_entries_preserves
        ((check_stop_touched (calc_zero_lag_ema (zlema_input step3 s c.close) c.close
          (zlema_input step3 s c.close).Period).1 c).1)
    exact ⟨by rw [hw.1, hk.1, hc.1, hz.1],
           by rw [hw.2.1, hk.2.1, hc.2.1, hz.2.1],
           by rw [hw.2.2.1, hk.2.2.1, hc.2.2.1, hz.2.2.1],
           by rw [hw.2.2.2.1, hk.2.2.2.1, hc.2.2.2.1, hz.2.2.2.1],
           by rw [hw.2.2.2.2.1, hk.2.2.2.2.1, hc.2.2.2.2.1, hz.2.2.2.2.1]⟩

/-- A scheduled exit survives the close phase untouched. -/
theorem close_phase_core_exit_persists {I : Type} (step3 : I → ℚ → I × ℕ)
    (s : AdaptiveZeroLagEMA I) (c : Candle) (w : Bool)
    (hex : s.exit_scheduled = true) :
    (close_phase_core step3 s c w).exit_scheduled = true := by
  have hz := zlema_input_fields step3 s c.close
  have hc := calc_state_fields (zlema_input step3 s c.close) c.close
      (zlema_input step3 s c.close).Period
  have hk := check_stop_touched_exit_persists
      (calc_zero_lag_ema (zlema_input step3 s c.close) c.close
        (zlema_input step3 s c.close).Period).1 c
      (by rw [hc.2.2.2.2.2.1, hz.2.2.2.2.2.1, hex])
  unfold close_phase_core
  split_ifs
  · have hw := warmup_clear_pending_preserves
        ((check_stop_touched (calc_zero_lag_ema (zlema_input step3 s c.close) c.close
          (zlema_input step3 s c.close).Period).1 c).1)
    rw [hw.2.2.2.2.2.2.2.2, hk]
  · have hw := schedule_entries_preserves
        ((check_stop_touched (calc_zero_lag_ema (zlema_input step3 s c.close) c.close
          (zlema_input step3 s c.close).Period).1 c).1)
    rw [hw.2.2.2.2.2.2.2.2, hk]

/-- Across the close phase the favorable extremums only ratchet
(highest never decreases, lowest never increases) and `trailing_active`
never deactivates. -/
theorem close_phase_core_ratchet {I : Type} (step3 : I → ℚ → I × ℕ)
    (s : AdaptiveZeroLagEMA I) (c : Candle) (w : Bool) :
    XQ.ble s.highest_price (close_phase_core step3 s c w).highest_price = true
  ∧ XQ.ble (close_phase_core step3 s c w).lowest_price s.lowest_price = true
  ∧ (s.trailing_active = true → (close_phase_core step3 s c w).trailing_active = true) := by
  have hz := zlema_input_fields step3 s c.close
  have hc := calc_state_fields (zlema_input step3 s c.close) c.close
      (zlema_input step3 s c.close).Period
  have hk := check_stop_touched_ratchet
      (calc_zero_lag_ema (zlema_input step3 s c.close) c.close
        (zlema_input step3 s c.close).Period).1 c
  have hhi : (calc_zero_lag_ema (zlema_input step3 s c.close) c.close
      (zlema_input step3 s c.close).Period).1.highest_price = s.highest_price := by
    rw [hc.2.2.2.2.2.2.2.1, hz.2.2.2.2.2.2.2.1]
  have hlo : (calc_zero_lag_ema (zlema_input step3 s c.close) c.close
      (zlema_input step3 s c.close).Period).1.lowest_price = s.lowest_price := by
    rw [hc.2.2.2.2.2.2.2.2.1, hz.2.2.2.2.2.2.2.2.1]
  have htr : (calc_zero_lag_ema (zlema_input step3 s c.close) c.close
      (zlema_input step3 s c.close).Period).1.trailing_active = s.trailing_active := by
    rw [hc.2.2.2.2.2.2.2.2.2.1, hz.2.2.2.2.2.2.2.2.2.1]
  rw [hhi, hlo, htr] at hk
  unfold close_phase_core
  split_ifs
  · have hw := warmup_clear_pending_preserves
        ((check_stop_touched (calc_zero_lag_ema (zlema_input step3 s c.close) c.close
          (zlema_input step3 s c.close).Period).1 c).1)
    exact ⟨by rw [hw.2.2.2.2.2.1]; exact hk.1,
           by rw [hw.2.2.2.2.2.2.1]; exact hk.2.1,
           fun h => by rw [hw.2.2.2.2.2.2.2.1]; exact hk.2.2 h⟩
  · have hw := schedule_entries_preserves
        ((check_stop_touched (calc_zero_lag_ema (zlema_input step3 s c.close) c.close
          (zlema_input step3 s c.close).Period).1 c).1)
    exact ⟨by rw [hw.2.2.2.2.2.1]; exact hk.1,
           by rw [hw.2.2.2.2.2.2.1]; exact hk.2.1,
           fun h => by rw [hw.2.2.2.2.2.2.2.1]; exact hk.2.2 h⟩

/-- Closing an open position for a reversal always emits an exit event. -/
theorem close_for_reversal_emits {I : Type} (s : AdaptiveZeroLagEMA I) (o : ℚ) (t : ℤ)
    (hne : s.position_size ≠ 0) :
    (close_for_reversal s o t).2 ≠ Option.none := by
  simp only [close_for_reversal]
  rw [if_neg hne]
  split_ifs <;> simp

/-- A scheduled exit with a proper side always emits an exit event. -/
theorem execute_scheduled_exit_emits {I : Type} (s : AdaptiveZeroLagEMA I) (o : ℚ) (t : ℤ)
    (hex : s.exit_scheduled = true)
    (hside : s.exit_scheduled_side = Side.long ∨ s.exit_scheduled_side = Side.short) :
    (execute_scheduled_exit s o t).2 ≠ Option.none := by
  rcases hside with h | h <;> simp [execute_scheduled_exit, hex, h]

/-- With no recognised side, `_execute_scheduled_exit` falls through and
changes nothing. -/
theorem execute_scheduled_exit_none_side {I : Type} (s : AdaptiveZeroLagEMA I) (o : ℚ) (t : ℤ)
    (hs1 : s.exit_scheduled_side ≠ Side.long) (hs2 : s.exit_scheduled_side ≠ Side.short) :
    execute_scheduled_exit s o t = (s, Option.none) := by
  by_cases hex : s.exit_scheduled = false
  · unfold execute_scheduled_exit
    rw [if_pos hex]
  · unfold execute_scheduled_exit
    rw [if_neg hex, if_neg hs1, if_neg hs2]

/-- If the entry blocks emitted nothing, they at most cleared the
scheduled-entry flags. -/
theorem entry_phase_empty {I : Type} (el es : Bool) (s : AdaptiveZeroLagEMA I) (o : ℚ) (t : ℤ)
    (h : (entry_phase el es s o t).2 = []) :
    (entry_phase el es s o t).1.position_size = s.position_size
  ∧ (entry_phase el es s o t).1.highest_price = s.highest_price
  ∧ (entry_phase el es s o t).1.lowest_price = s.lowest_price
  ∧ (entry_phase el es s o t).1.trailing_active = s.trailing_active
  ∧ (entry_phase el es s o t).1.position_avg_price = s.position_avg_price
  ∧ (entry_phase el es s o t).1.net_profit = s.net_profit
  ∧ (entry_phase el es s o t).1.balance = s.balance
  ∧ (entry_phase el es s o t).1.exit_scheduled = s.exit_scheduled := by
  simp only [entry_phase] at h ⊢
  split_ifs at h ⊢ <;> simp_all

/-- If the whole open phase emitted nothing, the position, extremums,
trailing flag, pnl and balance are untouched. -/
theorem open_phase_empty_actions {I : Type} (s : AdaptiveZeroLagEMA I) (o : ℚ) (t : ℤ)
    (h : (open_phase s o t).2 = []) :
    (open_phase s o t).1.position_size = s.position_size
  ∧ (open_phase s o t).1.highest_price = s.highest_price
  ∧ (open_phase s o t).1.lowest_price = s.lowest_price
  ∧ (open_phase s o t).1.trailing_active = s.trailing_active
  ∧ (open_phase s o t).1.position_avg_price = s.position_avg_price
  ∧ (open_phase s o t).1.net_profit = s.net_profit
  ∧ (open_phase s o t).1.balance = s.balance := by
  simp only [open_phase] at h ⊢
  by_cases h1 : s.entry_scheduled_long = true ∧ s.position_size < 0
  · rw [if_pos h1] at h ⊢
    exfalso
    rcases hcr : (close_for_reversal s o t).2 with _ | a
    · exact close_for_reversal_emits s o t (ne_of_lt h1.2) hcr
    · rw [hcr] at h
      simp at h
  · rw [if_neg h1] at h ⊢
    by_cases h2 : s.entry_scheduled_short = true ∧ 0 < s.position_size
    · rw [if_pos h2] at h ⊢
      exfalso
      rcases hcr : (close_for_reversal s o t).2 with _ | a
      · exact close_for_reversal_emits s o t (ne_of_gt h2.2) hcr
      · rw [hcr] at h
        simp at h
    · rw [if_neg h2] at h ⊢
      by_cases h3 : s.exit_scheduled = true ∧ s.position_size ≠ 0
      · rw [if_pos h3] at h ⊢
        by_cases hsl : s.exit_scheduled_side = Side.long
        · exfalso
          rcases hse : (execute_scheduled_exit s o t).2 with _ | a
          · exact execute_scheduled_exit_emits s o t h3.1 (Or.inl hsl) hse
          · rw [hse] at h
            simp at h
        · by_cases hss : s.exit_scheduled_side = Side.short
          · exfalso
            rcases hse : (execute_scheduled_exit s o t).2 with _ | a
            · exact execute_scheduled_exit_emits s o t h3.1 (Or.inr hss) hse
            · rw [hse] at h
              simp at h
          · rw [execute_scheduled_exit_none_side s o t hsl hss] at h ⊢
            simp only [Option.toList_none, List.nil_append] at h ⊢
            exact ⟨(entry_phase_empty _ _ _ _ _ h).1, (entry_phase_empty _ _ _ _ _ h).2.1,
               (entry_phase_empty _ _ _ _ _ h).2.2.1, (entry_phase_empty _ _ _ _ _ h).2.2.2.1,
               (entry_phase_empty _ _ _ _ _ h).2.2.2.2.1, (entry_phase_empty _ _ _ _ _ h).2.2.2.2.2.1,
               (entry_phase_empty _ _ _ _ _ h).2.2.2.2.2.2.1⟩
      · rw [if_neg h3] at h ⊢
        simp only [Option.toList_none, List.nil_append] at h ⊢
        exact ⟨(entry_phase_empty _ _ _ _ _ h).1, (entry_phase_empty _ _ _ _ _ h).2.1,
               (entry_phase_empty _ _ _ _ _ h).2.2.1, (entry_phase_empty _ _ _ _ _ h).2.2.2.1,
               (entry_phase_empty _ _ _ _ _ h).2.2.2.2.1, (entry_phase_empty _ _ _ _ _ h).2.2.2.2.2.1,
               (entry_phase_empty _ _ _ _ _ h).2.2.2.2.2.2.1⟩

/-- The `(ema_prev, ec_prev, ema, ec)` quadruple returned by
`_calc_zero_lag_ema` starts with the previous-bar values. -/
theorem calc_zero_lag_ema_prev_vals {I : Type} (s : AdaptiveZeroLagEMA I)
    (src : ℚ) (period : ℕ) :
    (calc_zero_lag_ema s src period).2.1 = s.EMA
  ∧ (calc_zero_lag_ema s src period).2.2.1 = s.EC :=
  ⟨rfl, rfl⟩

/-- If EC and EMA enter a bar equal, neither raw signal can fire on that
bar (both crossover comparisons are strict on the previous side). -/
theorem close_phase_no_raw_signal {I : Type} (step3 : I → ℚ → I × ℕ)
    (s : AdaptiveZeroLagEMA I) (c : Candle) (w : Bool)
    (hb : ¬ (s.EC < s.EMA)) (hs : ¬ (s.EMA < s.EC)) :
    (close_phase step3 s c w).buy_signal_prev = false
  ∧ (close_phase step3 s c w).sell_signal_prev = false := by
  have h1 : (close_phase step3 s c w).buy_signal_prev
      = (buy_signal_raw
          (calc_zero_lag_ema (zlema_input step3 s c.close) c.close
            (zlema_input step3 s c.close).Period).2.2.1
          (calc_zero_lag_ema (zlema_input step3 s c.close) c.close
            (zlema_input step3 s c.close).Period).2.1
          (calc_zero_lag_ema (zlema_input step3 s c.close) c.close
            (zlema_input step3 s c.close).Period).2.2.2.2
          (calc_zero_lag_ema (zlema_input step3 s c.close) c.close
            (zlema_input step3 s c.close).Period).2.2.2.1
        && decide ((calc_zero_lag_ema (zlema_input step3 s c.close) c.close
            (zlema_input step3 s c.close).Period).1.threshold <
            if c.close ≠ 0 then
              100 * (calc_zero_lag_ema (zlema_input step3 s c.close) c.close
                (zlema_input step3 s c.close).Period).1.LeastError / c.close
            else 0)) := rfl
  have h2 : (close_phase step3 s c w).sell_signal_prev
      = (sell_signal_raw
          (calc_zero_lag_ema (zlema_input step3 s c.close) c.close
            (zlema_input step3 s c.close).Period).2.2.1
          (calc_zero_lag_ema (zlema_input step3 s c.close) c.close
            (zlema_input step3 s c.close).Period).2.1
          (calc_zero_lag_ema (zlema_input step3 s c.close) c.close
            (zlema_input step3 s c.close).Period).2.2.2.2
          (calc_zero_lag_ema (zlema_input step3 s c.close) c.close
            (zlema_input step3 s c.close).Period).2.2.2.1
        && decide ((calc_zero_lag_ema (zlema_input step3 s c.close) c.close
            (zlema_input step3 s c.close).Period).1.threshold <
            if c.close ≠ 0 then
              100 * (calc_zero_lag_ema (zlema_input step3 s c.close) c.close
                (zlema_input step3 s c.close).Period).1.LeastError / c.close
            else 0)) := rfl
  have hecp : (calc_zero_lag_ema (zlema_input step3 s c.close) c.close
      (zlema_input step3 s c.close).Period).2.2.1 = s.EC := rfl
  have hemap : (calc_zero_lag_ema (zlema_input step3 s c.close) c.close
      (zlema_input step3 s c.close).Period).2.1 = s.EMA := rfl
  rw [h1, h2, hecp, hemap]
  constructor
  · rw [buy_signal_raw, decide_eq_false hb]
    simp
  · rw [sell_signal_raw, decide_eq_false hs]
    simp

/-! ## Claim C4 -/

/-- C4: when a scheduled trailing-stop / stop-loss exit executes at the
next bar's open, the fill price is `min(stop_price, open)` for a long
and `max(stop_price, open)` for a short — the stop price itself, or the
open when it gaps through the stop — and the realized pnl of the exit
event is computed from that fill price. -/
theorem stop_exit_fill_price {I : Type} (s : AdaptiveZeroLagEMA I) (open_p sp : ℚ) (ts : ℤ)
    (h : s.exit_scheduled = true) (hsp : s.stop_price = XQ.fin sp) :
    (s.exit_scheduled_side = Side.long →
      (execute_scheduled_exit s open_p ts).2 =
        Option.some (Action.exitLong (min sp open_p) s.position_size
          ((min sp open_p - s.position_avg_price) * s.position_size)
          (s.initial_capital +
            (s.net_profit + (min sp open_p - s.position_avg_price) * s.position_size))
          ts s.exit_scheduled_reason))
  ∧ (s.exit_scheduled_side = Side.short →
      (execute_scheduled_exit s open_p ts).2 =
        Option.some (Action.exitShort (max sp open_p) |s.position_size|
          ((s.position_avg_price - max sp open_p) * |s.position_size|)
          (s.initial_capital +
            (s.net_profit + (s.position_avg_price - max sp open_p) * |s.position_size|))
          ts s.exit_scheduled_reason)) := by
  constructor <;> intro hside <;>
    simp [execute_scheduled_exit, h, hside, hsp, XQ.minTo, XQ.maxTo]

def s4w : AdaptiveZeroLagEMA Unit :=
  { ifm := (), exit_scheduled := true, exit_scheduled_side := Side.long,
    exit_scheduled_reason := Reason.SL, stop_price := XQ.fin 5,
    position_size := 2, position_avg_price := 3, exit_active := true }

/-- Witness for C4 at a concrete state: scheduled long exit with stop 5,
entry 3, size 2, next open 4. -/
theorem stop_exit_fill_price_witness :
    (execute_scheduled_exit s4w 4 0).2 =
      Option.some (Action.exitLong (min 5 4) s4w.position_size
        ((min 5 4 - s4w.position_avg_price) * s4w.position_size)
        (s4w.initial_capital +
          (s4w.net_profit + (min 5 4 - s4w.position_avg_price) * s4w.position_size))
        0 s4w.exit_scheduled_reason) :=
  (stop_exit_fill_price s4w 4 5 0 rfl rfl).1 rfl

/-! ## Claim C1 -/

/-- C1 (amended): the raw crossover of `next` is strict on the
previous-bar side — the raw buy signal is true exactly when
`EC_prev < EMA_prev` and `EC > EMA`, the raw sell signal exactly when
`EC_prev > EMA_prev` and `EC < EMA`; in particular a bar with
`EC_prev = EMA_prev` produces no raw signal in either direction. -/
theorem crossover_strict_semantics (ec_prev ema_prev ec ema : ℚ) :
    (buy_signal_raw ec_prev ema_prev ec ema = true ↔ ec_prev < ema_prev ∧ ema < ec)
  ∧ (sell_signal_raw ec_prev ema_prev ec ema = true ↔ ema_prev < ec_prev ∧ ec < ema)
  ∧ (ec_prev = ema_prev →
      buy_signal_raw ec_prev ema_prev ec ema = false
      ∧ sell_signal_raw ec_prev ema_prev ec ema = false) := by
  refine ⟨by simp [buy_signal_raw], by simp [sell_signal_raw], ?_⟩
  intro h
  subst h
  simp [buy_signal_raw, sell_signal_raw]

/-- Witness for C1: at `EC_prev = EMA_prev` the engine emits no raw
signal (here with `EC = 1 > EMA = 0`, which the non-strict reading would
call a buy). -/
theorem crossover_strict_semantics_witness :
    buy_signal_raw 0 0 1 0 = false ∧ sell_signal_raw 0 0 1 0 = false :=
  (crossover_strict_semantics 0 0 1 0).2.2 rfl

/-- Oracle used by the concrete scenarios: any IFM block returning
period 3 (the claims hold for every oracle). -/
def stepK : Unit → ℚ → Unit × ℕ := fun _ _ => ((), 3)

/-- State for the C1 counterexample: fresh engine, no warmup, threshold
−1 so the error filter passes. -/
def s1cex : AdaptiveZeroLagEMA Unit := { ifm := (), threshold := -1, warmup_bars := 0 }

def c1cex : Candle := { open_p := 0, high := 0, low := 0, close := 1, ts := 0, idx := 0 }

/-- On the C1 counterexample bar the gain search finds the exact-fit gain
1.5 with zero residual. -/
theorem gainLoop_c1 : gainLoop (alphaOf 3) (emaNext (alphaOf 3) 1 0) 1 0 = (0, 3/2) := by
  obtain ⟨h1, _, h3⟩ := gainLoop_spec (alphaOf 3) (emaNext (alphaOf 3) 1 0) 1 0
  have hmem : (15 : ℤ) ∈ gainIndices := (mem_gainIndices 15).mpr (by omega)
  have hres : candResidual (alphaOf 3) (emaNext (alphaOf 3) 1 0) 1 0 (((15 : ℤ) : ℚ)/10) = 0 := by
    norm_num [candResidual, candEC, alphaOf, emaNext]
  have hle0 : (gainLoop (alphaOf 3) (emaNext (alphaOf 3) 1 0) 1 0).1 ≤ 0 := by
    have := h1 15 hmem
    rw [hres] at this
    exact this
  rcases h3 with h | ⟨i, _, h⟩
  · rw [h] at hle0
    norm_num at hle0
  · have hri : candResidual (alphaOf 3) (emaNext (alphaOf 3) 1 0) 1 0 ((i : ℚ)/10) = 0 := by
      refine le_antisymm ?_ (abs_nonneg _)
      rw [h] at hle0
      exact hle0
    have hgi : ((i : ℚ)/10) = 3/2 := by
      have h0 := hri
      rw [candResidual, abs_eq_zero, candEC, alphaOf, emaNext] at h0
      push_cast at h0
      linarith
    rw [h, hri, hgi]

/-- C1 counterexample: a concrete bar of `next` on which the previous
EC equals the previous EMA and the new EC exceeds the new EMA (so the
claim's non-strict crossover predicts a buy signal, and the error
filter passes), yet the engine latches no buy signal. -/
theorem crossover_nonstrict_refuted :
    (calc_zero_lag_ema s1cex 1 3).2 = (0, 0, 1/2, 1)
  ∧ ((0 : ℚ) ≤ 0 ∧ (1/2 : ℚ) < 1)
  ∧ 100 * (calc_zero_lag_ema s1cex 1 3).1.LeastError / 1 > s1cex.threshold
  ∧ (next stepK s1cex c1cex).1.buy_signal_prev = false := by
  have hEMA : s1cex.EMA = (0 : ℚ) := rfl
  have hEC : s1cex.EC = (0 : ℚ) := rfl
  refine ⟨?_, by norm_num, ?_, ?_⟩
  · rw [calc_zero_lag_ema_eq, hEMA, hEC, gainLoop_c1]
    norm_num [emaNext, alphaOf, candEC]
  · rw [calc_zero_lag_ema_eq, hEMA, hEC, gainLoop_c1]
    norm_num [s1cex]
  · have hnw : decide ((propagate_pending s1cex).bar_count
        ≤ (propagate_pending s1cex).warmup_bars) = false := by
      simp [propagate_pending, s1cex]
    have hbal : 0 < (propagate_pending s1cex).initial_capital
        + (propagate_pending s1cex).net_profit := by
      show (0 : ℚ) < 1000 + 0
      norm_num
    have hop : open_phase (propagate_pending s1cex) c1cex.open_p c1cex.ts
        = (propagate_pending s1cex, []) :=
      open_phase_noop _ _ _ rfl rfl rfl
    have hnext : next stepK s1cex c1cex
        = (close_phase stepK (propagate_pending s1cex) c1cex false, []) := by
      simp only [next]
      rw [hnw]
      rw [if_neg (by simp), if_pos hbal, hop]
    have hflags := close_phase_no_raw_signal stepK (propagate_pending s1cex) c1cex false
      (by rw [show (propagate_pending s1cex).EC = 0 from rfl,
              show (propagate_pending s1cex).EMA = 0 from rfl]
          exact lt_irrefl 0)
      (by rw [show (propagate_pending s1cex).EC = 0 from rfl,
              show (propagate_pending s1cex).EMA = 0 from rfl]
          exact lt_irrefl 0)
    rw [hnext]
    exact hflags.1

/-! ## Claim C3 -/

/-- C3 (amended): `_calc_zero_lag_ema` computes
`EMA = alpha*src + (1-alpha)*EMA_prev` with `alpha = 2/(period+1)`,
scans the 1801 gains i/10 (−900 ≤ i ≤ 900) all measured against the
same frozen previous-bar `EC_prev`, and — provided some candidate's
residual is below the 1,000,000.0 initialisation of `LeastError` —
sets `BestGain` to a grid gain of minimal residual, `LeastError` to that
minimal residual, and recomputes `EC` once with the best gain. -/
theorem calc_zero_lag_ema_gain_search {I : Type} (s : AdaptiveZeroLagEMA I)
    (src : ℚ) (period : ℕ)
    (h : ∃ i ∈ gainIndices,
        candResidual (alphaOf period) (emaNext (alphaOf period) src s.EMA) src s.EC
          ((i : ℚ)/10) < 1000000) :
    ∃ i ∈ gainIndices,
      (calc_zero_lag_ema s src period).1.BestGain = (i : ℚ)/10
    ∧ (calc_zero_lag_ema s src period).1.LeastError
        = candResidual (alphaOf period) (emaNext (alphaOf period) src s.EMA) src s.EC
            ((i : ℚ)/10)
    ∧ (∀ j ∈ gainIndices,
        (calc_zero_lag_ema s src period).1.LeastError
          ≤ candResidual (alphaOf period) (emaNext (alphaOf period) src s.EMA) src s.EC
              ((j : ℚ)/10))
    ∧ (calc_zero_lag_ema s src period).1.EMA = emaNext (alphaOf period) src s.EMA
    ∧ (calc_zero_lag_ema s src period).1.EC
        = candEC (alphaOf period) (emaNext (alphaOf period) src s.EMA) src s.EC
            ((calc_zero_lag_ema s src period).1.BestGain) := by
  obtain ⟨i0, hi0, hlt⟩ := h
  obtain ⟨h1, _, h3⟩ := gainLoop_spec (alphaOf period) (emaNext (alphaOf period) src s.EMA) src s.EC
  rcases h3 with hinit | ⟨i, hi, heq⟩
  · exfalso
    have := h1 i0 hi0
    rw [hinit] at this
    exact absurd (lt_of_le_of_lt this hlt) (by norm_num)
  · refine ⟨i, hi, ?_, ?_, ?_, ?_, ?_⟩
    · simp only [calc_zero_lag_ema, heq]
    · simp only [calc_zero_lag_ema, heq]
    · intro j hj
      simpa only [calc_zero_lag_ema] using h1 j hj
    · simp only [calc_zero_lag_ema]
    · simp only [calc_zero_lag_ema]

/-- All-defaults engine state (fresh engine, EMA = EC = 0). -/
def s0w : AdaptiveZeroLagEMA Unit := { ifm := () }

/-- Witness for C3 on a fresh engine with `src = 0`, `period = 1`: the
zero-residual hypothesis holds (every candidate fits exactly). -/
theorem calc_zero_lag_ema_gain_search_witness :
    ∃ i ∈ gainIndices,
      (calc_zero_lag_ema s0w 0 1).1.BestGain = (i : ℚ)/10
    ∧ (calc_zero_lag_ema s0w 0 1).1.LeastError
        = candResidual (alphaOf 1) (emaNext (alphaOf 1) 0 s0w.EMA) 0 s0w.EC ((i : ℚ)/10)
    ∧ (∀ j ∈ gainIndices,
        (calc_zero_lag_ema s0w 0 1).1.LeastError
          ≤ candResidual (alphaOf 1) (emaNext (alphaOf 1) 0 s0w.EMA) 0 s0w.EC ((j : ℚ)/10))
    ∧ (calc_zero_lag_ema s0w 0 1).1.EMA = emaNext (alphaOf 1) 0 s0w.EMA
    ∧ (calc_zero_lag_ema s0w 0 1).1.EC
        = candEC (alphaOf 1) (emaNext (alphaOf 1) 0 s0w.EMA) 0 s0w.EC
            ((calc_zero_lag_ema s0w 0 1).1.BestGain) :=
  calc_zero_lag_ema_gain_search s0w 0 1
    ⟨0, (mem_gainIndices 0).mpr (by omega),
      by norm_num [candResidual, candEC, alphaOf, emaNext, s0w]⟩

/-- State for the C3 counterexample: previous EMA huge, previous EC 0. -/
def s3cex : AdaptiveZeroLagEMA Unit := { ifm := (), EMA := 8000000 }

/-- C3 counterexample: on `src = 0`, `period = 3` from `s3cex` every
candidate's residual is 2,000,000, yet `LeastError` is left at the
1,000,000.0 initialisation sentinel (and `BestGain` at 0), so
`LeastError` is not the minimal residual and in particular differs from
the residual of `BestGain` itself. -/
theorem least_error_sentinel_refuted :
    (calc_zero_lag_ema s3cex 0 3).1.LeastError = 1000000
  ∧ (calc_zero_lag_ema s3cex 0 3).1.BestGain = 0
  ∧ candResidual (alphaOf 3) (emaNext (alphaOf 3) 0 s3cex.EMA) 0 s3cex.EC
      ((calc_zero_lag_ema s3cex 0 3).1.BestGain) = 2000000
  ∧ (1000000 : ℚ) < 2000000 := by
  have hloop : gainLoop (alphaOf 3) (emaNext (alphaOf 3) 0 s3cex.EMA) 0 s3cex.EC
      = (1000000, 0) := by
    apply foldl_gainStep_no_update
    intro i _
    norm_num [candResidual, candEC, alphaOf, emaNext, s3cex]
  refine ⟨?_, ?_, ?_, by norm_num⟩
  · simp only [calc_zero_lag_ema, hloop]
  · simp only [calc_zero_lag_ema, hloop]
  · simp only [calc_zero_lag_ema, hloop]
    norm_num [candResidual, candEC, alphaOf, emaNext, s3cex]

/-! ## Claim C2 -/

/-- At a flat close with no scheduled exit and a latched pending buy, the
close phase schedules the long entry (the `elif` never reaches the
pending sell). -/
theorem close_phase_core_flat_sched {I : Type} (step3 : I → ℚ → I × ℕ)
    (s : AdaptiveZeroLagEMA I) (c : Candle)
    (hpos : s.position_size = 0) (hex : s.exit_scheduled = false)
    (hpb : s.pending_buy = true) :
    (close_phase_core step3 s c false).entry_scheduled_long = true
  ∧ (close_phase_core step3 s c false).entry_scheduled_short = false
  ∧ (close_phase_core step3 s c false).pending_buy = false
  ∧ (close_phase_core step3 s c false).pending_sell = s.pending_sell := by
  simp [close_phase_core, calc_zero_lag_ema_eq, zlema_input, check_stop_touched,
    schedule_entries, hpos, hex, hpb]

/-- C2 (amended): outside warmup, with no exit scheduled, a flat position
and both pending flags latched, `next` schedules only the LONG entry —
the `pending_buy` branch is evaluated first and the `elif` skips the
sell, so the buy wins the tie-break, `pending_buy` is consumed and
`pending_sell` persists; the two entries are never scheduled together. -/
theorem tiebreak_buy_wins {I : Type} (step3 : I → ℚ → I × ℕ)
    (s : AdaptiveZeroLagEMA I) (c : Candle)
    (hw : s.warmup_bars < s.bar_count + 1)
    (hpos : s.position_size = 0)
    (hpb : s.pending_buy = true) (hps : s.pending_sell = true)
    (hex : s.exit_scheduled = false)
    (hel : s.entry_scheduled_long = false) (hes : s.entry_scheduled_short = false) :
    (next step3 s c).1.entry_scheduled_long = true
  ∧ (next step3 s c).1.entry_scheduled_short = false
  ∧ (next step3 s c).1.pending_buy = false
  ∧ (next step3 s c).1.pending_sell = true := by
  have hP := propagate_pending_fields s
  have hel' : (propagate_pending s).entry_scheduled_long = false := by rw [hP.1, hel]
  have hes' : (propagate_pending s).entry_scheduled_short = false := by rw [hP.2.1, hes]
  have hex' : (propagate_pending s).exit_scheduled = false := by rw [hP.2.2.1, hex]
  have hpos' : (propagate_pending s).position_size = 0 := by rw [hP.2.2.2.1, hpos]
  have hpb' : (propagate_pending s).pending_buy = true := by
    rw [hP.2.2.2.2.1, hpb, Bool.true_or]
  have hps' : (propagate_pending s).pending_sell = true := by
    rw [hP.2.2.2.2.2.1, hps, Bool.true_or]
  have hC := close_phase_core_flat_sched step3 (propagate_pending s) c hpos' hex' hpb'
  have hgoal : (close_phase step3 (propagate_pending s) c false).entry_scheduled_long = true
      ∧ (close_phase step3 (propagate_pending s) c false).entry_scheduled_short = false
      ∧ (close_phase step3 (propagate_pending s) c false).pending_buy = false
      ∧ (close_phase step3 (propagate_pending s) c false).pending_sell = true := by
    have hD := close_phase_proj step3 (propagate_pending s) c false
    refine ⟨?_, ?_, ?_, ?_⟩
    · rw [hD.1, hC.1]
    · rw [hD.2.1, hC.2.1]
    · rw [hD.2.2.1, hC.2.2.1]
    · rw [hD.2.2.2.1, hC.2.2.2, hps']
  rw [next_unfold step3 s c hw]
  by_cases hb : 0 < s.initial_capital + s.net_profit
  · rw [if_pos hb, open_phase_noop _ _ _ hel' hes' hex']
    exact hgoal
  · rw [if_neg hb]
    exact hgoal

/-- State for the C2 scenario: flat, outside warmup, both pendings
latched. -/
def s2cex : AdaptiveZeroLagEMA Unit :=
  { ifm := (), warmup_bars := 0, pending_buy := true, pending_sell := true }

def c0 : Candle := { open_p := 0, high := 0, low := 0, close := 0, ts := 0, idx := 0 }

/-- Witness for C2 on the concrete flat two-pendings state. -/
theorem tiebreak_buy_wins_witness :
    (next stepK s2cex c0).1.entry_scheduled_long = true
  ∧ (next stepK s2cex c0).1.entry_scheduled_short = false
  ∧ (next stepK s2cex c0).1.pending_buy = false
  ∧ (next stepK s2cex c0).1.pending_sell = true :=
  tiebreak_buy_wins stepK s2cex c0 (by decide) rfl rfl rfl rfl rfl rfl

/-- C2 counterexample: in the flat two-pendings scenario the claim says
the SELL must win (only a short entry scheduled); the engine schedules
only the LONG entry. -/
theorem tiebreak_sell_wins_refuted :
    s2cex.position_size = 0
  ∧ s2cex.pending_buy = true
  ∧ s2cex.pending_sell = true
  ∧ s2cex.exit_scheduled = false
  ∧ s2cex.warmup_bars < s2cex.bar_count + 1
  ∧ (next stepK s2cex c0).1.entry_scheduled_long = true
  ∧ (next stepK s2cex c0).1.entry_scheduled_short = false := by
  have hC := close_phase_core_flat_sched stepK (propagate_pending s2cex) c0 rfl rfl rfl
  have hD := close_phase_proj stepK (propagate_pending s2cex) c0 false
  have hnext := next_unfold stepK s2cex c0 (by decide)
  have hbal : (0 : ℚ) < s2cex.initial_capital + s2cex.net_profit := by
    norm_num [s2cex]
  refine ⟨rfl, rfl, rfl, rfl, by decide, ?_, ?_⟩
  · rw [hnext, if_pos hbal, open_phase_noop _ _ _ rfl rfl rfl]
    show (close_phase stepK (propagate_pending s2cex) c0 false).entry_scheduled_long = true
    rw [hD.1, hC.1]
  · rw [hnext, if_pos hbal, open_phase_noop _ _ _ rfl rfl rfl]
    show (close_phase stepK (propagate_pending s2cex) c0 false).entry_scheduled_short = false
    rw [hD.2.1, hC.2.1]

/-! ## Claim C10 -/

/-- C10: when the account balance `initial_capital + net_profit` is
non-positive at a bar's open (outside warmup), the whole open phase is
skipped: no scheduled entry and no scheduled trailing/SL exit executes,
the position and balance are untouched, and an already scheduled exit
stays scheduled. -/
theorem nonpositive_balance_freezes_open_phase {I : Type} (step3 : I → ℚ → I × ℕ)
    (s : AdaptiveZeroLagEMA I) (c : Candle)
    (hw : s.warmup_bars < s.bar_count + 1)
    (hb : s.initial_capital + s.net_profit ≤ 0) :
    (next step3 s c).2 = []
  ∧ (next step3 s c).1.position_size = s.position_size
  ∧ (next step3 s c).1.position_avg_price = s.position_avg_price
  ∧ (next step3 s c).1.net_profit = s.net_profit
  ∧ (next step3 s c).1.balance = s.balance
  ∧ (s.exit_scheduled = true → (next step3 s c).1.exit_scheduled = true) := by
  rw [next_unfold step3 s c hw, if_neg (not_lt.mpr hb)]
  obtain ⟨d1, d2, d3, d4, d5, d6, d7, d8, d9, d10, d11, d12, d13⟩ :=
    close_phase_proj step3 (propagate_pending s) c false
  obtain ⟨p1, p2, p3, p4, p5⟩ := close_phase_core_preserves step3 (propagate_pending s) c false
  refine ⟨rfl, ?_, ?_, ?_, ?_, ?_⟩
  · show (close_phase step3 (propagate_pending s) c false).position_size = s.position_size
    rw [d6, p1]
    rfl
  · show (close_phase step3 (propagate_pending s) c false).position_avg_price
        = s.position_avg_price
    rw [d7, p2]
    rfl
  · show (close_phase step3 (propagate_pending s) c false).net_profit = s.net_profit
    rw [d8, p3]
    rfl
  · show (close_phase step3 (propagate_pending s) c false).balance = s.balance
    rw [d9, p4]
    rfl
  · intro hex
    show (close_phase step3 (propagate_pending s) c false).exit_scheduled = true
    rw [d5]
    exact close_phase_core_exit_persists step3 (propagate_pending s) c false
      (by rw [(propagate_pending_fields s).2.2.1, hex])

def s10w : AdaptiveZeroLagEMA Unit :=
  { ifm := (), warmup_bars := 0, net_profit := -2000, position_size := 1,
    position_avg_price := 5, exit_active := true, exit_scheduled := true,
    exit_scheduled_side := Side.long, exit_scheduled_reason := Reason.SL,
    stop_price := XQ.fin 4, highest_price := XQ.fin 5, balance := -1000 }

/-- Witness for C10: a long position with a scheduled SL exit and a
wiped-out balance; the exit does not execute and stays scheduled. -/
theorem nonpositive_balance_freezes_open_phase_witness :
    (next stepK s10w c0).2 = []
  ∧ (next stepK s10w c0).1.position_size = s10w.position_size
  ∧ (next stepK s10w c0).1.position_avg_price = s10w.position_avg_price
  ∧ (next stepK s10w c0).1.net_profit = s10w.net_profit
  ∧ (next stepK s10w c0).1.balance = s10w.balance
  ∧ (s10w.exit_scheduled = true → (next stepK s10w c0).1.exit_scheduled = true) :=
  nonpositive_balance_freezes_open_phase stepK s10w c0 (by decide) (by norm_num [s10w])

/-! ## Claim C9 -/

/-- C9: across any bar in which the open position survives (the call
emits no trade event), the position is unchanged, the tracked favorable
extremum never retreats (highest ratchets up for a long, lowest
ratchets down for a short), and once `trailing_active` is true it stays
true. -/
theorem trailing_monotone {I : Type} (step3 : I → ℚ → I × ℕ)
    (s : AdaptiveZeroLagEMA I) (c : Candle)
    (hacts : (next step3 s c).2 = []) :
    (0 < s.position_size →
        (next step3 s c).1.position_size = s.position_size
      ∧ XQ.ble s.highest_price (next step3 s c).1.highest_price = true
      ∧ (s.trailing_active = true → (next step3 s c).1.trailing_active = true))
  ∧ (s.position_size < 0 →
        (next step3 s c).1.position_size = s.position_size
      ∧ XQ.ble (next step3 s c).1.lowest_price s.lowest_price = true
      ∧ (s.trailing_active = true → (next step3 s c).1.trailing_active = true)) := by
  suffices h : (next step3 s c).1.position_size = s.position_size
      ∧ XQ.ble s.highest_price (next step3 s c).1.highest_price = true
      ∧ XQ.ble (next step3 s c).1.lowest_price s.lowest_price = true
      ∧ (s.trailing_active = true → (next step3 s c).1.trailing_active = true) by
    exact ⟨fun _ => ⟨h.1, h.2.1, h.2.2.2⟩, fun _ => ⟨h.1, h.2.2.1, h.2.2.2⟩⟩
  have key : ∀ (X : AdaptiveZeroLagEMA I) (w : Bool),
      X.position_size = s.position_size → X.highest_price = s.highest_price →
      X.lowest_price = s.lowest_price → X.trailing_active = s.trailing_active →
      (close_phase step3 X c w).position_size = s.position_size
      ∧ XQ.ble s.highest_price (close_phase step3 X c w).highest_price = true
      ∧ XQ.ble (close_phase step3 X c w).lowest_price s.lowest_price = true
      ∧ (s.trailing_active = true → (close_phase step3 X c w).trailing_active = true) := by
    intro X w hx1 hx2 hx3 hx4
    obtain ⟨d1, d2, d3, d4, d5, d6, d7, d8, d9, d10, d11, d12, d13⟩ :=
      close_phase_proj step3 X c w
    obtain ⟨p1, p2, p3, p4, p5⟩ := close_phase_core_preserves step3 X c w
    obtain ⟨r1, r2, r3⟩ := close_phase_core_ratchet step3 X c w
    refine ⟨?_, ?_, ?_, ?_⟩
    · rw [d6, p1, hx1]
    · rw [d11]
      rw [hx2] at r1
      exact r1
    · rw [d12]
      rw [hx3] at r2
      exact r2
    · intro ht
      rw [d13]
      exact r3 (by rw [hx4]; exact ht)
  by_cases hw : s.bar_count + 1 ≤ s.warmup_bars
  · rw [next_unfold_warmup step3 s c hw]
    exact key _ true rfl rfl rfl rfl
  · rw [next_unfold step3 s c (by omega)] at hacts ⊢
    by_cases hb : 0 < s.initial_capital + s.net_profit
    · rw [if_pos hb] at hacts ⊢
      have hOE := open_phase_empty_actions (propagate_pending s) c.open_p c.ts hacts
      exact key _ false (by rw [hOE.1]; rfl) (by rw [hOE.2.1]; rfl)
        (by rw [hOE.2.2.1]; rfl) (by rw [hOE.2.2.2.1]; rfl)
    · rw [if_neg hb] at hacts ⊢
      exact key _ false rfl rfl rfl rfl

def s9w : AdaptiveZeroLagEMA Unit :=
  { ifm := (), warmup_bars := 0, position_size := 1, position_avg_price := 2,
    highest_price := XQ.fin 2, trailing_active := true, exit_active := false }

/-- Witness for C9: a surviving long position keeps its size, its highest
never retreats, and trailing stays active. -/
theorem trailing_monotone_witness :
    (0 : ℚ) < s9w.position_size
  ∧ ((next stepK s9w c0).1.position_size = s9w.position_size
    ∧ XQ.ble s9w.highest_price (next stepK s9w c0).1.highest_price = true
    ∧ (s9w.trailing_active = true → (next stepK s9w c0).1.trailing_active = true)) :=
  ⟨by norm_num [s9w],
   (trailing_monotone stepK s9w c0
      (by rw [next_unfold stepK s9w c0 (by decide),
              if_pos (show (0:ℚ) < s9w.initial_capital + s9w.net_profit by norm_num [s9w]),
              open_phase_noop _ _ _ rfl rfl rfl])).1
     (by norm_num [s9w])⟩

/-! ## Claim C5 -/

/-- Closing a short position for a reversal, written out explicitly. -/
theorem close_for_reversal_short {I : Type} (s : AdaptiveZeroLagEMA I) (o : ℚ) (t : ℤ)
    (hp : s.position_size < 0) :
    close_for_reversal s o t
      = (reset_short
          { s with
            exit_scheduled := false
            exit_scheduled_side := Side.none
            net_profit := s.net_profit + (s.position_avg_price - o) * |s.position_size|
            balance := s.initial_capital
              + (s.net_profit + (s.position_avg_price - o) * |s.position_size|) },
         Option.some (Action.exitShort o |s.position_size|
           ((s.position_avg_price - o) * |s.position_size|)
           (s.initial_capital + (s.net_profit + (s.position_avg_price - o) * |s.position_size|))
           t Reason.REVERSAL)) := by
  unfold close_for_reversal
  rw [if_neg (ne_of_lt hp), if_neg (not_lt.mpr hp.le)]

/-- Closing a long position for a reversal, written out explicitly. -/
theorem close_for_reversal_long {I : Type} (s : AdaptiveZeroLagEMA I) (o : ℚ) (t : ℤ)
    (hp : 0 < s.position_size) :
    close_for_reversal s o t
      = (reset_long
          { s with
            exit_scheduled := false
            exit_scheduled_side := Side.none
            net_profit := s.net_profit + (o - s.position_avg_price) * s.position_size
            balance := s.initial_capital
              + (s.net_profit + (o - s.position_avg_price) * s.position_size) },
         Option.some (Action.exitLong o s.position_size
           ((o - s.position_avg_price) * s.position_size)
           (s.initial_capital + (s.net_profit + (o - s.position_avg_price) * s.position_size))
           t Reason.REVERSAL)) := by
  unfold close_for_reversal
  rw [if_neg (ne_of_gt hp), if_pos (show 0 < s.position_size from hp)]

/-- C5: a scheduled entry opposite to the open position executes as a
reversal at the bar's open: `next` returns exactly two trade events, one
EXIT closing the old position and one ENTER opening the new one, both at
the bar's open price and timestamp (provided the position sizing after
the close is positive, i.e. the entry actually fills). -/
theorem reversal_two_events {I : Type} (step3 : I → ℚ → I × ℕ)
    (s : AdaptiveZeroLagEMA I) (c : Candle)
    (hw : s.warmup_bars < s.bar_count + 1)
    (hb : 0 < s.initial_capital + s.net_profit) :
    (s.entry_scheduled_long = true → s.position_size < 0 →
      0 < calc_lots (close_for_reversal (propagate_pending s) c.open_p c.ts).1 →
      ∃ q pnl b2 lots, (next step3 s c).2 =
        [Action.exitShort c.open_p q pnl b2 c.ts Reason.REVERSAL,
         Action.buy lots c.open_p b2 c.ts])
  ∧ (s.entry_scheduled_short = true → s.entry_scheduled_long = false →
      0 < s.position_size →
      0 < calc_lots (close_for_reversal (propagate_pending s) c.open_p c.ts).1 →
      ∃ q pnl b2 lots, (next step3 s c).2 =
        [Action.exitLong c.open_p q pnl b2 c.ts Reason.REVERSAL,
         Action.sell lots c.open_p b2 c.ts]) := by
  have hP := propagate_pending_fields s
  have hN : (next step3 s c).2 = (open_phase (propagate_pending s) c.open_p c.ts).2 := by
    rw [next_unfold step3 s c hw, if_pos hb]
  constructor
  · intro hel hpos hlots
    have hel' : (propagate_pending s).entry_scheduled_long = true := by rw [hP.1, hel]
    have hpos' : (propagate_pending s).position_size < 0 := by rw [hP.2.2.2.1]; exact hpos
    rw [hN]
    simp only [open_phase]
    rw [if_pos ⟨hel', hpos'⟩]
    rw [close_for_reversal_short (propagate_pending s) c.open_p c.ts hpos'] at hlots ⊢
    simp only [entry_phase]
    rw [if_pos ⟨hel', by rw [show (reset_short _ : AdaptiveZeroLagEMA I).position_size
          = (0:ℚ) from rfl]⟩]
    simp only at hlots
    rw [if_pos hlots]
    exact ⟨_, _, _, _, rfl⟩
  · intro hes hel hpos hlots
    have hes' : (propagate_pending s).entry_scheduled_short = true := by rw [hP.2.1, hes]
    have hel' : (propagate_pending s).entry_scheduled_long = false := by rw [hP.1, hel]
    have hpos' : 0 < (propagate_pending s).position_size := by rw [hP.2.2.2.1]; exact hpos
    rw [hN]
    simp only [open_phase]
    rw [if_neg (by rw [hel']; simp), if_pos ⟨hes', hpos'⟩]
    rw [close_for_reversal_long (propagate_pending s) c.open_p c.ts hpos'] at hlots ⊢
    simp only [entry_phase]
    rw [if_neg (by rw [hel']; simp)]
    rw [if_pos ⟨hes', by rw [show (reset_long _ : AdaptiveZeroLagEMA I).position_size
          = (0:ℚ) from rfl]⟩]
    simp only at hlots
    rw [if_pos hlots]
    exact ⟨_, _, _, _, rfl⟩

def s5w : AdaptiveZeroLagEMA Unit :=
  { ifm := (), warmup_bars := 0, position_size := -1, position_avg_price := 2,
    entry_scheduled_long := true, exit_active := true, lowest_price := XQ.fin 2 }

def c5w : Candle := { open_p := 1, high := 1, low := 1, close := 1, ts := 7, idx := 3 }

/-- Witness for C5: a short position with a scheduled long entry reverses
at the open — one EXIT_SHORT and one BUY, same price and timestamp. -/
theorem reversal_two_events_witness :
    ∃ q pnl b2 lots, (next stepK s5w c5w).2 =
      [Action.exitShort c5w.open_p q pnl b2 c5w.ts Reason.REVERSAL,
       Action.buy lots c5w.open_p b2 c5w.ts] :=
  (reversal_two_events stepK s5w c5w (by decide) (by norm_num [s5w])).1 rfl
    (by norm_num [s5w])
    (by rw [close_for_reversal_short (propagate_pending s5w) c5w.open_p c5w.ts
            (by norm_num [propagate_pending, s5w])]
        norm_num [calc_lots, reset_short, propagate_pending, s5w, c5w])

/-! ## Claim C8 -/

/-- A scheduled long exit, written out explicitly. -/
theorem execute_scheduled_exit_long_shape {I : Type} (s : AdaptiveZeroLagEMA I) (o : ℚ)
    (t : ℤ) (hex : s.exit_scheduled = true) (hside : s.exit_scheduled_side = Side.long) :
    execute_scheduled_exit s o t
      = (reset_long
          { s with
            net_profit := s.net_profit
              + (s.stop_price.minTo o - s.position_avg_price) * s.position_size
            balance := s.initial_capital
              + (s.net_profit
                  + (s.stop_price.minTo o - s.position_avg_price) * s.position_size) },
         Option.some (Action.exitLong (s.stop_price.minTo o) s.position_size
           ((s.stop_price.minTo o - s.position_avg_price) * s.position_size)
           (s.initial_capital
             + (s.net_profit
                 + (s.stop_price.minTo o - s.position_avg_price) * s.position_size))
           t s.exit_scheduled_reason)) := by
  unfold execute_scheduled_exit
  rw [if_neg (by simp [hex]), if_pos hside]

/-- A scheduled short exit, written out explicitly. -/
theorem execute_scheduled_exit_short_shape {I : Type} (s : AdaptiveZeroLagEMA I) (o : ℚ)
    (t : ℤ) (hex : s.exit_scheduled = true) (hside : s.exit_scheduled_side = Side.short) :
    execute_scheduled_exit s o t
      = (reset_short
          { s with
            net_profit := s.net_profit
              + (s.position_avg_price - s.stop_price.maxTo o) * |s.position_size|
            balance := s.initial_capital
              + (s.net_profit
                  + (s.position_avg_price - s.stop_price.maxTo o) * |s.position_size|) },
         Option.some (Action.exitShort (s.stop_price.maxTo o) (|s.position_size|)
           ((s.position_avg_price - s.stop_price.maxTo o) * |s.position_size|)
           (s.initial_capital
             + (s.net_profit
                 + (s.position_avg_price - s.stop_price.maxTo o) * |s.position_size|))
           t s.exit_scheduled_reason)) := by
  unfold execute_scheduled_exit
  rw [if_neg (by simp [hex]), if_neg (by simp [hside]), if_pos hside]

/-- When `_execute_scheduled_exit` emits nothing it changes nothing. -/
theorem execute_scheduled_exit_none {I : Type} (s : AdaptiveZeroLagEMA I) (o : ℚ) (t : ℤ)
    (h : (execute_scheduled_exit s o t).2 = Option.none) :
    execute_scheduled_exit s o t = (s, Option.none) := by
  unfold execute_scheduled_exit at h ⊢
  split_ifs at h ⊢ <;> simp_all

/-- When `_close_for_reversal` emits nothing it changes nothing. -/
theorem close_for_reversal_none {I : Type} (s : AdaptiveZeroLagEMA I) (o : ℚ) (t : ℤ)
    (h : (close_for_reversal s o t).2 = Option.none) :
    close_for_reversal s o t = (s, Option.none) := by
  by_cases hp : s.position_size = 0
  · simp [close_for_reversal, hp]
  · exact absurd h (close_for_reversal_emits s o t hp)

/-- Every event of `_close_for_reversal` is an exit realizing its pnl on
top of the prior balance, and the post-state carries that balance. -/
theorem close_for_reversal_exit_event {I : Type} (s : AdaptiveZeroLagEMA I) (o : ℚ) (t : ℤ)
    (h : s.balance = s.initial_capital + s.net_profit) (a : Action)
    (ha : (close_for_reversal s o t).2 = Option.some a) :
    a.isExit = true
  ∧ a.balanceOf = s.balance + a.pnlOf
  ∧ (close_for_reversal s o t).1.balance = a.balanceOf
  ∧ (close_for_reversal s o t).1.initial_capital = s.initial_capital
  ∧ (close_for_reversal s o t).1.net_profit = s.net_profit + a.pnlOf := by
  rcases lt_trichotomy s.position_size 0 with hp | hp | hp
  · rw [close_for_reversal_short s o t hp] at ha ⊢
    obtain rfl := Option.some.inj ha
    exact ⟨rfl, by simp only [Action.balanceOf, Action.pnlOf]; rw [h]; ring, rfl, rfl, rfl⟩
  · simp [close_for_reversal, hp] at ha
  · rw [close_for_reversal_long s o t hp] at ha ⊢
    obtain rfl := Option.some.inj ha
    exact ⟨rfl, by simp only [Action.balanceOf, Action.pnlOf]; rw [h]; ring, rfl, rfl, rfl⟩

/-- Every event of `_execute_scheduled_exit` is an exit realizing its
pnl on top of the prior balance, and the post-state carries it. -/
theorem execute_scheduled_exit_exit_event {I : Type} (s : AdaptiveZeroLagEMA I) (o : ℚ)
    (t : ℤ) (h : s.balance = s.initial_capital + s.net_profit) (a : Action)
    (ha : (execute_scheduled_exit s o t).2 = Option.some a) :
    a.isExit = true
  ∧ a.balanceOf = s.balance + a.pnlOf
  ∧ (execute_scheduled_exit s o t).1.balance = a.balanceOf
  ∧ (execute_scheduled_exit s o t).1.initial_capital = s.initial_capital
  ∧ (execute_scheduled_exit s o t).1.net_profit = s.net_profit + a.pnlOf := by
  by_cases hex : s.exit_scheduled = true
  · by_cases hl : s.exit_scheduled_side = Side.long
    · rw [execute_scheduled_exit_long_shape s o t hex hl] at ha ⊢
      obtain rfl := Option.some.inj ha
      exact ⟨rfl, by simp only [Action.balanceOf, Action.pnlOf]; rw [h]; ring, rfl, rfl, rfl⟩
    · by_cases hs : s.exit_scheduled_side = Side.short
      · rw [execute_scheduled_exit_short_shape s o t hex hs] at ha ⊢
        obtain rfl := Option.some.inj ha
        exact ⟨rfl, by simp only [Action.balanceOf, Action.pnlOf]; rw [h]; ring, rfl, rfl, rfl⟩
      · rw [execute_scheduled_exit_none_side s o t hl hs] at ha
        exact absurd ha (by simp)
  · rw [Bool.not_eq_true] at hex
    simp [execute_scheduled_exit, hex] at ha

/-- The entry blocks never emit exits, preserve capital and realized
pnl, and (under the balance invariant) leave the balance unchanged. -/
theorem entry_phase_balance {I : Type} (el es : Bool) (s1 : AdaptiveZeroLagEMA I) (o : ℚ)
    (t : ℤ) (h : s1.balance = s1.initial_capital + s1.net_profit) :
    (entry_phase el es s1 o t).1.balance = s1.balance
  ∧ (entry_phase el es s1 o t).1.initial_capital = s1.initial_capital
  ∧ (entry_phase el es s1 o t).1.net_profit = s1.net_profit
  ∧ ∀ a ∈ (entry_phase el es s1 o t).2, a.isExit = false := by
  simp only [entry_phase]
  split_ifs <;> simp_all [Action.isExit]

/-- Balance bookkeeping across the open phase: the invariant survives,
the balance moves only on an exit event, and every exit event realizes
its pnl on top of the prior balance. -/
theorem open_phase_balance {I : Type} (s : AdaptiveZeroLagEMA I) (o : ℚ) (t : ℤ)
    (h : s.balance = s.initial_capital + s.net_profit) :
    (open_phase s o t).1.balance
        = (open_phase s o t).1.initial_capital + (open_phase s o t).1.net_profit
  ∧ ((∀ a ∈ (open_phase s o t).2, a.isExit = false) → (open_phase s o t).1.balance = s.balance)
  ∧ (∀ a ∈ (open_phase s o t).2, a.isExit = true → a.balanceOf = s.balance + a.pnlOf) := by
  simp only [open_phase]
  split_ifs with h1 h2 h3
  · rcases ha : (close_for_reversal s o t).2 with _ | a
    · exact absurd ha (close_for_reversal_emits s o t (ne_of_lt h1.2))
    · obtain ⟨hx, hbal, hpost, hinit, hnet⟩ := close_for_reversal_exit_event s o t h a ha
      have hinv1 : (close_for_reversal s o t).1.balance
          = (close_for_reversal s o t).1.initial_capital
            + (close_for_reversal s o t).1.net_profit := by
        rw [hpost, hinit, hnet, hbal, h]; ring
      obtain ⟨e1, e2, e3, e4⟩ := entry_phase_balance s.entry_scheduled_long
          s.entry_scheduled_short (close_for_reversal s o t).1 o t hinv1
      refine ⟨by rw [e1, e2, e3]; exact hinv1, fun hall => ?_, fun b hb hxb => ?_⟩
      · exact Bool.noConfusion (hx.symm.trans (hall a (by simp)))
      · simp only [Option.toList_some, List.singleton_append, List.mem_cons] at hb
        rcases hb with rfl | hb
        · exact hbal
        · exact Bool.noConfusion ((e4 b hb).symm.trans hxb)
  · rcases ha : (close_for_reversal s o t).2 with _ | a
    · exact absurd ha (close_for_reversal_emits s o t (ne_of_gt h2.2))
    · obtain ⟨hx, hbal, hpost, hinit, hnet⟩ := close_for_reversal_exit_event s o t h a ha
      have hinv1 : (close_for_reversal s o t).1.balance
          = (close_for_reversal s o t).1.initial_capital
            + (close_for_reversal s o t).1.net_profit := by
        rw [hpost, hinit, hnet, hbal, h]; ring
      obtain ⟨e1, e2, e3, e4⟩ := entry_phase_balance s.entry_scheduled_long
          s.entry_scheduled_short (close_for_reversal s o t).1 o t hinv1
      refine ⟨by rw [e1, e2, e3]; exact hinv1, fun hall => ?_, fun b hb hxb => ?_⟩
      · exact Bool.noConfusion (hx.symm.trans (hall a (by simp)))
      · simp only [Option.toList_some, List.singleton_append, List.mem_cons] at hb
        rcases hb with rfl | hb
        · exact hbal
        · exact Bool.noConfusion ((e4 b hb).symm.trans hxb)
  · rcases ha : (execute_scheduled_exit s o t).2 with _ | a
    · rw [execute_scheduled_exit_none s o t ha]
      obtain ⟨e1, e2, e3, e4⟩ := entry_phase_balance s.entry_scheduled_long
          s.entry_scheduled_short s o t h
      refine ⟨by rw [e1, e2, e3]; exact h, fun _ => e1, fun b hb hxb => ?_⟩
      simp only [Option.toList_none, List.nil_append] at hb
      exact Bool.noConfusion ((e4 b hb).symm.trans hxb)
    · obtain ⟨hx, hbal, hpost, hinit, hnet⟩ := execute_scheduled_exit_exit_event s o t h a ha
      have hinv1 : (execute_scheduled_exit s o t).1.balance
          = (execute_scheduled_exit s o t).1.initial_capital
            + (execute_scheduled_exit s o t).1.net_profit := by
        rw [hpost, hinit, hnet, hbal, h]; ring
      obtain ⟨e1, e2, e3, e4⟩ := entry_phase_balance s.entry_scheduled_long
          s.entry_scheduled_short (execute_scheduled_exit s o t).1 o t hinv1
      refine ⟨by rw [e1, e2, e3]; exact hinv1, fun hall => ?_, fun b hb hxb => ?_⟩
      · exact Bool.noConfusion (hx.symm.trans (hall a (by simp)))
      · simp only [Option.toList_some, List.singleton_append, List.mem_cons] at hb
        rcases hb with rfl | hb
        · exact hbal
        · exact Bool.noConfusion ((e4 b hb).symm.trans hxb)
  · obtain ⟨e1, e2, e3, e4⟩ := entry_phase_balance s.entry_scheduled_long
        s.entry_scheduled_short s o t h
    refine ⟨by rw [e1, e2, e3]; exact h, fun _ => e1, fun b hb hxb => ?_⟩
    simp only [Option.toList_none, List.nil_append] at hb
    exact Bool.noConfusion ((e4 b hb).symm.trans hxb)

/-- C8: if the balance equals initial capital plus realized pnl going
into a bar, it still does after the bar; the balance changes only when
the bar emits an exit event; and every exit event's balance is the prior
balance plus that trade's realized pnl. -/
theorem balance_invariant {I : Type} (step3 : I → ℚ → I × ℕ)
    (s : AdaptiveZeroLagEMA I) (c : Candle)
    (h : s.balance = s.initial_capital + s.net_profit) :
    (next step3 s c).1.balance
        = (next step3 s c).1.initial_capital + (next step3 s c).1.net_profit
  ∧ ((∀ a ∈ (next step3 s c).2, a.isExit = false) → (next step3 s c).1.balance = s.balance)
  ∧ (∀ a ∈ (next step3 s c).2, a.isExit = true → a.balanceOf = s.balance + a.pnlOf) := by
  by_cases hw : s.bar_count + 1 ≤ s.warmup_bars
  · rw [next_unfold_warmup step3 s c hw]
    have hcp := close_phase_proj step3
        { propagate_pending s with entry_scheduled_long := false,
                                   entry_scheduled_short := false } c true
    have hpre := close_phase_core_preserves step3
        { propagate_pending s with entry_scheduled_long := false,
                                   entry_scheduled_short := false } c true
    refine ⟨?_, fun _ => ?_, fun a ha hx => ?_⟩
    · rw [hcp.2.2.2.2.2.2.2.2.1, hpre.2.2.2.1, hcp.2.2.2.2.2.2.2.1, hpre.2.2.1,
          hcp.2.2.2.2.2.2.2.2.2.1, hpre.2.2.2.2]
      exact h
    · rw [hcp.2.2.2.2.2.2.2.2.1, hpre.2.2.2.1]
      rfl
    · simp at ha
  · have hw' : s.warmup_bars < s.bar_count + 1 := by omega
    rw [next_unfold step3 s c hw']
    by_cases hb : 0 < s.initial_capital + s.net_profit
    · rw [if_pos hb]
      have hop := open_phase_balance (propagate_pending s) c.open_p c.ts h
      have hcp := close_phase_proj step3
          (open_phase (propagate_pending s) c.open_p c.ts).1 c false
      have hpre := close_phase_core_preserves step3
          (open_phase (propagate_pending s) c.open_p c.ts).1 c false
      refine ⟨?_, fun hall => ?_, fun a ha hx => ?_⟩
      · rw [hcp.2.2.2.2.2.2.2.2.1, hpre.2.2.2.1, hcp.2.2.2.2.2.2.2.1, hpre.2.2.1,
            hcp.2.2.2.2.2.2.2.2.2.1, hpre.2.2.2.2]
        exact hop.1
      · rw [hcp.2.2.2.2.2.2.2.2.1, hpre.2.2.2.1]
        exact hop.2.1 hall
      · exact hop.2.2 a ha hx
    · rw [if_neg hb]
      have hcp := close_phase_proj step3 (propagate_pending s) c false
      have hpre := close_phase_core_preserves step3 (propagate_pending s) c false
      refine ⟨?_, fun _ => ?_, fun a ha hx => ?_⟩
      · rw [hcp.2.2.2.2.2.2.2.2.1, hpre.2.2.2.1, hcp.2.2.2.2.2.2.2.1, hpre.2.2.1,
            hcp.2.2.2.2.2.2.2.2.2.1, hpre.2.2.2.2]
        exact h
      · rw [hcp.2.2.2.2.2.2.2.2.1, hpre.2.2.2.1]
        rfl
      · simp at ha

def s8w : AdaptiveZeroLagEMA Unit :=
  { ifm := (), warmup_bars := 0, net_profit := 50, balance := 1050 }

/-- Witness for C8: a state with balance 1050 = 1000 + 50 keeps the
invariant across a bar, and the balance is untouched without exits. -/
theorem balance_invariant_witness :
    ((next stepK s8w c0).1.balance
        = (next stepK s8w c0).1.initial_capital + (next stepK s8w c0).1.net_profit)
  ∧ ((∀ a ∈ (next stepK s8w c0).2, a.isExit = false) → (next stepK s8w c0).1.balance = s8w.balance)
  ∧ (∀ a ∈ (next stepK s8w c0).2, a.isExit = true → a.balanceOf = s8w.balance + a.pnlOf) :=
  balance_invariant stepK s8w c0 (by norm_num [s8w])

/-! ## Claim C7 -/

/-- The entry blocks never emit stop exits, and emit a `SELL`/`BUY`
only when the matching entry was scheduled. -/
theorem entry_phase_actions {I : Type} (el es : Bool) (s1 : AdaptiveZeroLagEMA I) (o : ℚ)
    (t : ℤ) :
    ∀ a ∈ (entry_phase el es s1 o t).2,
      a.isStopExitLong = false ∧ a.isStopExitShort = false
    ∧ (a.isSell = true → es = true) ∧ (a.isBuy = true → el = true) := by
  simp only [entry_phase]
  split_ifs with h1 h2 h3 h4
  · intro a ha
    simp only [List.mem_singleton] at ha
    subst ha
    exact ⟨rfl, rfl, fun hc => Bool.noConfusion hc, fun _ => h1.1⟩
  · intro a ha
    exact absurd ha (List.not_mem_nil a)
  · intro a ha
    simp only [List.mem_singleton] at ha
    subst ha
    exact ⟨rfl, rfl, fun _ => h3.1, fun hc => Bool.noConfusion hc⟩
  · intro a ha
    exact absurd ha (List.not_mem_nil a)
  · intro a ha
    exact absurd ha (List.not_mem_nil a)

/-- A reversal close is never a stop exit (its reason is `REVERSAL`)
and never an entry. -/
theorem close_for_reversal_event_kind {I : Type} (s : AdaptiveZeroLagEMA I) (o : ℚ) (t : ℤ)
    (a : Action) (ha : (close_for_reversal s o t).2 = Option.some a) :
    a.isStopExitLong = false ∧ a.isStopExitShort = false
  ∧ a.isBuy = false ∧ a.isSell = false := by
  rcases lt_trichotomy s.position_size 0 with hp | hp | hp
  · rw [close_for_reversal_short s o t hp] at ha
    obtain rfl := Option.some.inj ha
    exact ⟨rfl, rfl, rfl, rfl⟩
  · simp [close_for_reversal, hp] at ha
  · rw [close_for_reversal_long s o t hp] at ha
    obtain rfl := Option.some.inj ha
    exact ⟨rfl, rfl, rfl, rfl⟩

/-- A scheduled-exit event is never an entry, and a long (short) stop
exit can only come from a long (short) scheduled side. -/
theorem execute_scheduled_exit_event_kind {I : Type} (s : AdaptiveZeroLagEMA I) (o : ℚ)
    (t : ℤ) (a : Action) (ha : (execute_scheduled_exit s o t).2 = Option.some a) :
    a.isBuy = false ∧ a.isSell = false
  ∧ (a.isStopExitLong = true → s.exit_scheduled_side = Side.long)
  ∧ (a.isStopExitShort = true → s.exit_scheduled_side = Side.short) := by
  by_cases hex : s.exit_scheduled = true
  · by_cases hl : s.exit_scheduled_side = Side.long
    · rw [execute_scheduled_exit_long_shape s o t hex hl] at ha
      obtain rfl := Option.some.inj ha
      exact ⟨rfl, rfl, fun _ => hl, fun hc => Bool.noConfusion hc⟩
    · by_cases hs : s.exit_scheduled_side = Side.short
      · rw [execute_scheduled_exit_short_shape s o t hex hs] at ha
        obtain rfl := Option.some.inj ha
        exact ⟨rfl, rfl, fun hc => Bool.noConfusion hc, fun _ => hs⟩
      · rw [execute_scheduled_exit_none_side s o t hl hs] at ha
        exact absurd ha (by simp)
  · rw [Bool.not_eq_true] at hex
    simp [execute_scheduled_exit, hex] at ha

/-- Across one open phase (with side-consistent exit bookkeeping), a
long stop exit excludes any `SELL` and a short stop exit any `BUY`. -/
theorem open_phase_stop_exit_excl {I : Type} (s : AdaptiveZeroLagEMA I) (o : ℚ) (t : ℤ)
    (hL : s.exit_scheduled_side = Side.long → 0 < s.position_size)
    (hS : s.exit_scheduled_side = Side.short → s.position_size < 0) :
    (∀ a ∈ (open_phase s o t).2, a.isStopExitLong = true →
        ∀ b ∈ (open_phase s o t).2, b.isSell = false)
  ∧ (∀ a ∈ (open_phase s o t).2, a.isStopExitShort = true →
        ∀ b ∈ (open_phase s o t).2, b.isBuy = false) := by
  simp only [open_phase]
  split_ifs with h1 h2 h3
  · rcases ha : (close_for_reversal s o t).2 with _ | a
    · exact absurd ha (close_for_reversal_emits s o t (ne_of_lt h1.2))
    · obtain ⟨k1, k2, _, _⟩ := close_for_reversal_event_kind s o t a ha
      constructor
      · intro x hx hxs
        simp only [Option.toList_some, List.singleton_append, List.mem_cons] at hx
        rcases hx with rfl | hx
        · exact Bool.noConfusion (k1.symm.trans hxs)
        · exact Bool.noConfusion ((entry_phase_actions s.entry_scheduled_long
            s.entry_scheduled_short (close_for_reversal s o t).1 o t x hx).1.symm.trans hxs)
      · intro x hx hxs
        simp only [Option.toList_some, List.singleton_append, List.mem_cons] at hx
        rcases hx with rfl | hx
        · exact Bool.noConfusion (k2.symm.trans hxs)
        · exact Bool.noConfusion ((entry_phase_actions s.entry_scheduled_long
            s.entry_scheduled_short (close_for_reversal s o t).1 o t x hx).2.1.symm.trans hxs)
  · rcases ha : (close_for_reversal s o t).2 with _ | a
    · exact absurd ha (close_for_reversal_emits s o t (ne_of_gt h2.2))
    · obtain ⟨k1, k2, _, _⟩ := close_for_reversal_event_kind s o t a ha
      constructor
      · intro x hx hxs
        simp only [Option.toList_some, List.singleton_append, List.mem_cons] at hx
        rcases hx with rfl | hx
        · exact Bool.noConfusion (k1.symm.trans hxs)
        · exact Bool.noConfusion ((entry_phase_actions s.entry_scheduled_long
            s.entry_scheduled_short (close_for_reversal s o t).1 o t x hx).1.symm.trans hxs)
      · intro x hx hxs
        simp only [Option.toList_some, List.singleton_append, List.mem_cons] at hx
        rcases hx with rfl | hx
        · exact Bool.noConfusion (k2.symm.trans hxs)
        · exact Bool.noConfusion ((entry_phase_actions s.entry_scheduled_long
            s.entry_scheduled_short (close_for_reversal s o t).1 o t x hx).2.1.symm.trans hxs)
  · rcases ha : (execute_scheduled_exit s o t).2 with _ | a
    · constructor
      · intro x hx hxs
        simp only [Option.toList_none, List.nil_append] at hx
        exact Bool.noConfusion ((entry_phase_actions s.entry_scheduled_long
          s.entry_scheduled_short (execute_scheduled_exit s o t).1 o t x hx).1.symm.trans hxs)
      · intro x hx hxs
        simp only [Option.toList_none, List.nil_append] at hx
        exact Bool.noConfusion ((entry_phase_actions s.entry_scheduled_long
          s.entry_scheduled_short (execute_scheduled_exit s o t).1 o t x hx).2.1.symm.trans hxs)
    · obtain ⟨k1, k2, k3, k4⟩ := execute_scheduled_exit_event_kind s o t a ha
      constructor
      · intro x hx hxs
        simp only [Option.toList_some, List.singleton_append, List.mem_cons] at hx
        rcases hx with rfl | hx
        · have hpos := hL (k3 hxs)
          have hes : s.entry_scheduled_short ≠ true := fun hv => h2 ⟨hv, hpos⟩
          intro b hb
          simp only [Option.toList_some, List.singleton_append, List.mem_cons] at hb
          rcases hb with rfl | hb
          · exact k2
          · cases hbs : b.isSell
            · rfl
            · exact absurd ((entry_phase_actions s.entry_scheduled_long
                s.entry_scheduled_short (execute_scheduled_exit s o t).1 o t b hb).2.2.1 hbs) hes
        · exact Bool.noConfusion ((entry_phase_actions s.entry_scheduled_long
            s.entry_scheduled_short (execute_scheduled_exit s o t).1 o t x hx).1.symm.trans hxs)
      · intro x hx hxs
        simp only [Option.toList_some, List.singleton_append, List.mem_cons] at hx
        rcases hx with rfl | hx
        · have hneg := hS (k4 hxs)
          have hel : s.entry_scheduled_long ≠ true := fun hv => h1 ⟨hv, hneg⟩
          intro b hb
          simp only [Option.toList_some, List.singleton_append, List.mem_cons] at hb
          rcases hb with rfl | hb
          · exact k1
          · cases hbs : b.isBuy
            · rfl
            · exact absurd ((entry_phase_actions s.entry_scheduled_long
                s.entry_scheduled_short (execute_scheduled_exit s o t).1 o t b hb).2.2.2 hbs) hel
        · exact Bool.noConfusion ((entry_phase_actions s.entry_scheduled_long
            s.entry_scheduled_short (execute_scheduled_exit s o t).1 o t x hx).2.1.symm.trans hxs)
  · constructor
    · intro x hx hxs
      simp only [Option.toList_none, List.nil_append] at hx
      exact Bool.noConfusion ((entry_phase_actions s.entry_scheduled_long
        s.entry_scheduled_short s o t x hx).1.symm.trans hxs)
    · intro x hx hxs
      simp only [Option.toList_none, List.nil_append] at hx
      exact Bool.noConfusion ((entry_phase_actions s.entry_scheduled_long
        s.entry_scheduled_short s o t x hx).2.1.symm.trans hxs)

/-- C7: one `next()` call never pairs a scheduled trailing/SL exit with
a freshly-signaled opposite entry (under side-consistent exit
bookkeeping: a long/short scheduled side implies a long/short
position), and whenever an exit is scheduled at a bar's close the
scheduling step leaves the state alone — the pendings persist and no
entry is scheduled on that close. -/
theorem stop_exit_entry_separation {I : Type} (step3 : I → ℚ → I × ℕ)
    (s : AdaptiveZeroLagEMA I) (c : Candle)
    (hL : s.exit_scheduled_side = Side.long → 0 < s.position_size)
    (hS : s.exit_scheduled_side = Side.short → s.position_size < 0) :
    (∀ a ∈ (next step3 s c).2, a.isStopExitLong = true →
        ∀ b ∈ (next step3 s c).2, b.isSell = false)
  ∧ (∀ a ∈ (next step3 s c).2, a.isStopExitShort = true →
        ∀ b ∈ (next step3 s c).2, b.isBuy = false)
  ∧ ∀ (u : AdaptiveZeroLagEMA I), u.exit_scheduled = true → schedule_entries u = u := by
  refine ⟨?_, ?_, fun u hu => by unfold schedule_entries; rw [if_pos hu]⟩
  · by_cases hw : s.bar_count + 1 ≤ s.warmup_bars
    · rw [next_unfold_warmup step3 s c hw]
      intro a ha
      simp at ha
    · rw [next_unfold step3 s c (by omega)]
      by_cases hb : 0 < s.initial_capital + s.net_profit
      · rw [if_pos hb]
        exact (open_phase_stop_exit_excl (propagate_pending s) c.open_p c.ts hL hS).1
      · rw [if_neg hb]
        intro a ha
        simp at ha
  · by_cases hw : s.bar_count + 1 ≤ s.warmup_bars
    · rw [next_unfold_warmup step3 s c hw]
      intro a ha
      simp at ha
    · rw [next_unfold step3 s c (by omega)]
      by_cases hb : 0 < s.initial_capital + s.net_profit
      · rw [if_pos hb]
        exact (open_phase_stop_exit_excl (propagate_pending s) c.open_p c.ts hL hS).2
      · rw [if_neg hb]
        intro a ha
        simp at ha

def s7w : AdaptiveZeroLagEMA Unit :=
  { ifm := (), warmup_bars := 0, position_size := 1, position_avg_price := 2,
    exit_scheduled := true, exit_scheduled_side := Side.long,
    exit_scheduled_reason := Reason.SL, exit_active := true, stop_price := XQ.fin 1 }

/-- Witness for C7: a long position with a scheduled SL exit never pairs
that exit with a `SELL` in the same bar. -/
theorem stop_exit_entry_separation_witness :
    (∀ a ∈ (next stepK s7w c0).2, a.isStopExitLong = true →
        ∀ b ∈ (next stepK s7w c0).2, b.isSell = false)
  ∧ (∀ a ∈ (next stepK s7w c0).2, a.isStopExitShort = true →
        ∀ b ∈ (next stepK s7w c0).2, b.isBuy = false)
  ∧ ∀ (u : AdaptiveZeroLagEMA Unit), u.exit_scheduled = true → schedule_entries u = u :=
  stop_exit_entry_separation stepK s7w c0 (fun _ => by norm_num [s7w])
    (fun h => absurd h (by decide))

/-! ## Claim C6 -/

/-- The pending flags and latched signals do not affect what
`_close_for_reversal` does. -/
theorem close_for_reversal_pending {I : Type} (t : AdaptiveZeroLagEMA I) (p q r r' : Bool)
    (o : ℚ) (ts : ℤ) :
    close_for_reversal
      { t with
        pending_buy := p
        pending_sell := q
        buy_signal_prev := r
        sell_signal_prev := r' } o ts
      = ({ (close_for_reversal t o ts).1 with
           pending_buy := p
           pending_sell := q
           buy_signal_prev := r
           sell_signal_prev := r' },
         (close_for_reversal t o ts).2) := by
  simp only [close_for_reversal]
  split_ifs <;> rfl

/-- The pending flags and latched signals do not affect what
`_execute_scheduled_exit` does. -/
theorem execute_scheduled_exit_pending {I : Type} (t : AdaptiveZeroLagEMA I) (p q r r' : Bool)
    (o : ℚ) (ts : ℤ) :
    execute_scheduled_exit
      { t with
        pending_buy := p
        pending_sell := q
        buy_signal_prev := r
        sell_signal_prev := r' } o ts
      = ({ (execute_scheduled_exit t o ts).1 with
           pending_buy := p
           pending_sell := q
           buy_signal_prev := r
           sell_signal_prev := r' },
         (execute_scheduled_exit t o ts).2) := by
  simp only [execute_scheduled_exit]
  split_ifs <;> rfl

/-- The pending flags and latched signals do not affect the entry
blocks' trade events. -/
theorem entry_phase_pending_acts {I : Type} (el es : Bool) (t : AdaptiveZeroLagEMA I)
    (p q r r' : Bool) (o : ℚ) (ts : ℤ) :
    (entry_phase el es
      { t with
        pending_buy := p
        pending_sell := q
        buy_signal_prev := r
        sell_signal_prev := r' } o ts).2
      = (entry_phase el es t o ts).2 := by
  simp only [entry_phase, calc_lots]
  split_ifs <;> rfl

/-- The pending flags and latched signals do not affect the open
phase's trade events. -/
theorem open_phase_acts_pending_indep {I : Type} (t : AdaptiveZeroLagEMA I) (p q r r' : Bool)
    (o : ℚ) (ts : ℤ) :
    (open_phase
      { t with
        pending_buy := p
        pending_sell := q
        buy_signal_prev := r
        sell_signal_prev := r' } o ts).2
      = (open_phase t o ts).2 := by
  simp only [open_phase]
  split_ifs with h1 h2 h3
  · rw [close_for_reversal_pending t p q r r' o ts]
    simp only [entry_phase_pending_acts]
  · rw [close_for_reversal_pending t p q r r' o ts]
    simp only [entry_phase_pending_acts]
  · rw [execute_scheduled_exit_pending t p q r r' o ts]
    simp only [entry_phase_pending_acts]
  · simp only [entry_phase_pending_acts]

/-- The stop-touch check schedules the same exit on two states that
agree on every stop-relevant field, fed candles with the same high and
low (the close plays no role). -/
theorem check_stop_touched_exit_congr {I : Type} (t1 t2 : AdaptiveZeroLagEMA I)
    (c1 c2 : Candle)
    (h1 : t1.position_size = t2.position_size)
    (h2 : t1.exit_active = t2.exit_active)
    (h3 : t1.exit_scheduled = t2.exit_scheduled)
    (h4 : t1.highest_price = t2.highest_price)
    (h5 : t1.lowest_price = t2.lowest_price)
    (h6 : t1.position_avg_price = t2.position_avg_price)
    (h7 : t1.tick_size = t2.tick_size)
    (h8 : t1.trailing_active = t2.trailing_active)
    (h9 : t1.fixed_tp_points = t2.fixed_tp_points)
    (h10 : t1.fixed_sl_points = t2.fixed_sl_points)
    (h11 : t1.trail_offset = t2.trail_offset)
    (hh : c1.high = c2.high) (hl : c1.low = c2.low) :
    (check_stop_touched t1 c1).1.exit_scheduled
      = (check_stop_touched t2 c2).1.exit_scheduled := by
  unfold check_stop_touched
  rw [h1, h2, h3, h4, h5, h6, h7, h8, h9, h10, h11, hh, hl]
  split_ifs <;> simp [apply_ite, h3]

/-- Entry scheduling produces the same pending/scheduled flags on two
states that agree on its inputs. -/
theorem schedule_entries_flags_congr {I : Type} (t1 t2 : AdaptiveZeroLagEMA I)
    (h1 : t1.exit_scheduled = t2.exit_scheduled)
    (h2 : t1.pending_buy = t2.pending_buy)
    (h3 : t1.pending_sell = t2.pending_sell)
    (h4 : t1.position_size = t2.position_size)
    (h5 : t1.entry_scheduled_long = t2.entry_scheduled_long)
    (h6 : t1.entry_scheduled_short = t2.entry_scheduled_short) :
    (schedule_entries t1).pending_buy = (schedule_entries t2).pending_buy
  ∧ (schedule_entries t1).pending_sell = (schedule_entries t2).pending_sell
  ∧ (schedule_entries t1).entry_scheduled_long = (schedule_entries t2).entry_scheduled_long
  ∧ (schedule_entries t1).entry_scheduled_short = (schedule_entries t2).entry_scheduled_short := by
  unfold schedule_entries
  split_ifs <;> simp_all [apply_ite]

/-- The warmup pending-consumption produces the same pending/scheduled
flags on two states that agree on its inputs. -/
theorem warmup_clear_pending_flags_congr {I : Type} (t1 t2 : AdaptiveZeroLagEMA I)
    (h2 : t1.pending_buy = t2.pending_buy)
    (h3 : t1.pending_sell = t2.pending_sell)
    (h4 : t1.position_size = t2.position_size)
    (h5 : t1.entry_scheduled_long = t2.entry_scheduled_long)
    (h6 : t1.entry_scheduled_short = t2.entry_scheduled_short) :
    (warmup_clear_pending t1).pending_buy = (warmup_clear_pending t2).pending_buy
  ∧ (warmup_clear_pending t1).pending_sell = (warmup_clear_pending t2).pending_sell
  ∧ (warmup_clear_pending t1).entry_scheduled_long = (warmup_clear_pending t2).entry_scheduled_long
  ∧ (warmup_clear_pending t1).entry_scheduled_short
      = (warmup_clear_pending t2).entry_scheduled_short := by
  unfold warmup_clear_pending
  split_ifs <;> simp_all [apply_ite]

/-- The scheduler-relevant fields of the state handed to
`schedule_entries` / warmup consumption all agree with the state
entering the close phase. -/
theorem stop_sched_state_fields {I : Type} (step3 : I → ℚ → I × ℕ)
    (u : AdaptiveZeroLagEMA I) (c : Candle) :
    (check_stop_touched (calc_zero_lag_ema (zlema_input step3 u c.close) c.close
        (zlema_input step3 u c.close).Period).1 c).1.pending_buy = u.pending_buy
  ∧ (check_stop_touched (calc_zero_lag_ema (zlema_input step3 u c.close) c.close
        (zlema_input step3 u c.close).Period).1 c).1.pending_sell = u.pending_sell
  ∧ (check_stop_touched (calc_zero_lag_ema (zlema_input step3 u c.close) c.close
        (zlema_input step3 u c.close).Period).1 c).1.position_size = u.position_size
  ∧ (check_stop_touched (calc_zero_lag_ema (zlema_input step3 u c.close) c.close
        (zlema_input step3 u c.close).Period).1 c).1.entry_scheduled_long
      = u.entry_scheduled_long
  ∧ (check_stop_touched (calc_zero_lag_ema (zlema_input step3 u c.close) c.close
        (zlema_input step3 u c.close).Period).1 c).1.entry_scheduled_short
      = u.entry_scheduled_short := by
  have k := check_stop_touched_preserves (calc_zero_lag_ema (zlema_input step3 u c.close)
      c.close (zlema_input step3 u c.close).Period).1 c
  exact ⟨k.2.2.2.2.2.1, k.2.2.2.2.2.2.1, k.1, k.2.2.2.2.2.2.2.1, k.2.2.2.2.2.2.2.2⟩

/-- Outside warmup the close phase ends in `schedule_entries`. -/
theorem close_phase_core_sched {I : Type} (step3 : I → ℚ → I × ℕ)
    (u : AdaptiveZeroLagEMA I) (c : Candle) :
    close_phase_core step3 u c false
      = schedule_entries ((check_stop_touched (calc_zero_lag_ema (zlema_input step3 u c.close)
          c.close (zlema_input step3 u c.close).Period).1 c).1) := by
  unfold close_phase_core
  rw [if_neg (fun hcc => Bool.noConfusion hcc)]

/-- During warmup the close phase ends in `warmup_clear_pending`. -/
theorem close_phase_core_warm {I : Type} (step3 : I → ℚ → I × ℕ)
    (u : AdaptiveZeroLagEMA I) (c : Candle) :
    close_phase_core step3 u c true
      = warmup_clear_pending ((check_stop_touched (calc_zero_lag_ema (zlema_input step3 u c.close)
          c.close (zlema_input step3 u c.close).Period).1 c).1) := by
  unfold close_phase_core
  rw [if_pos rfl]

/-- The pending and scheduled-entry flags after the close phase do not
depend on the candle's close price (only its high/low matter). -/
theorem close_phase_core_flags_congr {I : Type} (step3 : I → ℚ → I × ℕ)
    (u : AdaptiveZeroLagEMA I) (c1 c2 : Candle) (w : Bool)
    (hh : c1.high = c2.high) (hl : c1.low = c2.low) :
    (close_phase_core step3 u c1 w).pending_buy = (close_phase_core step3 u c2 w).pending_buy
  ∧ (close_phase_core step3 u c1 w).pending_sell = (close_phase_core step3 u c2 w).pending_sell
  ∧ (close_phase_core step3 u c1 w).entry_scheduled_long
      = (close_phase_core step3 u c2 w).entry_scheduled_long
  ∧ (close_phase_core step3 u c1 w).entry_scheduled_short
      = (close_phase_core step3 u c2 w).entry_scheduled_short := by
  have A1 := stop_sched_state_fields step3 u c1
  have A2 := stop_sched_state_fields step3 u c2
  have hex := check_stop_touched_exit_congr
      (calc_zero_lag_ema (zlema_input step3 u c1.close) c1.close
        (zlema_input step3 u c1.close).Period).1
      (calc_zero_lag_ema (zlema_input step3 u c2.close) c2.close
        (zlema_input step3 u c2.close).Period).1
      c1 c2 rfl rfl rfl rfl rfl rfl rfl rfl rfl rfl rfl hh hl
  cases w
  · rw [close_phase_core_sched step3 u c1, close_phase_core_sched step3 u c2]
    exact schedule_entries_flags_congr _ _ hex (A1.1.trans A2.1.symm)
      (A1.2.1.trans A2.2.1.symm) (A1.2.2.1.trans A2.2.2.1.symm)
      (A1.2.2.2.1.trans A2.2.2.2.1.symm) (A1.2.2.2.2.trans A2.2.2.2.2.symm)
  · rw [close_phase_core_warm step3 u c1, close_phase_core_warm step3 u c2]
    exact warmup_clear_pending_flags_congr _ _ (A1.1.trans A2.1.symm)
      (A1.2.1.trans A2.2.1.symm) (A1.2.2.1.trans A2.2.2.1.symm)
      (A1.2.2.2.1.trans A2.2.2.2.1.symm) (A1.2.2.2.2.trans A2.2.2.2.2.symm)

/-- The bar's trade events do not depend on the bar's close price. -/
theorem next_acts_close_indep {I : Type} (step3 : I → ℚ → I × ℕ)
    (s : AdaptiveZeroLagEMA I) (c : Candle) (x : ℚ) :
    (next step3 s { c with close := x }).2 = (next step3 s c).2 := by
  by_cases hw : s.bar_count + 1 ≤ s.warmup_bars
  · rw [next_unfold_warmup step3 s { c with close := x } hw,
        next_unfold_warmup step3 s c hw]
  · have hw' : s.warmup_bars < s.bar_count + 1 := by omega
    rw [next_unfold step3 s { c with close := x } hw', next_unfold step3 s c hw']
    by_cases hb : 0 < s.initial_capital + s.net_profit
    · rw [if_pos hb, if_pos hb]
    · rw [if_neg hb, if_neg hb]

/-- The bar's resulting pending and scheduled-entry flags do not depend
on the bar's close price. -/
theorem next_flags_close_indep {I : Type} (step3 : I → ℚ → I × ℕ)
    (s : AdaptiveZeroLagEMA I) (c : Candle) (x : ℚ) :
    (next step3 s { c with close := x }).1.pending_buy = (next step3 s c).1.pending_buy
  ∧ (next step3 s { c with close := x }).1.pending_sell = (next step3 s c).1.pending_sell
  ∧ (next step3 s { c with close := x }).1.entry_scheduled_long
        = (next step3 s c).1.entry_scheduled_long
  ∧ (next step3 s { c with close := x }).1.entry_scheduled_short
        = (next step3 s c).1.entry_scheduled_short := by
  by_cases hw : s.bar_count + 1 ≤ s.warmup_bars
  · rw [next_unfold_warmup step3 s { c with close := x } hw, next_unfold_warmup step3 s c hw]
    have hpA := close_phase_proj step3
        { propagate_pending s with entry_scheduled_long := false,
                                   entry_scheduled_short := false } { c with close := x } true
    have hpB := close_phase_proj step3
        { propagate_pending s with entry_scheduled_long := false,
                                   entry_scheduled_short := false } c true
    have hcg := close_phase_core_flags_congr step3
        { propagate_pending s with entry_scheduled_long := false,
                                   entry_scheduled_short := false } { c with close := x } c
        true rfl rfl
    exact ⟨(hpA.2.2.1).trans (hcg.1.trans hpB.2.2.1.symm),
           (hpA.2.2.2.1).trans (hcg.2.1.trans hpB.2.2.2.1.symm),
           (hpA.1).trans (hcg.2.2.1.trans hpB.1.symm),
           (hpA.2.1).trans (hcg.2.2.2.trans hpB.2.1.symm)⟩
  · have hw' : s.warmup_bars < s.bar_count + 1 := by omega
    rw [next_unfold step3 s { c with close := x } hw', next_unfold step3 s c hw']
    by_cases hb : 0 < s.initial_capital + s.net_profit
    · rw [if_pos hb, if_pos hb]
      have hopen : (open_phase (propagate_pending s) ({ c with close := x } : Candle).open_p
          ({ c with close := x } : Candle).ts).1
            = (open_phase (propagate_pending s) c.open_p c.ts).1 := rfl
      rw [hopen]
      have hpA := close_phase_proj step3 (open_phase (propagate_pending s) c.open_p c.ts).1
          { c with close := x } false
      have hpB := close_phase_proj step3
          (open_phase (propagate_pending s) c.open_p c.ts).1 c false
      have hcg := close_phase_core_flags_congr step3
          (open_phase (propagate_pending s) c.open_p c.ts).1 { c with close := x } c
          false rfl rfl
      exact ⟨(hpA.2.2.1).trans (hcg.1.trans hpB.2.2.1.symm),
             (hpA.2.2.2.1).trans (hcg.2.1.trans hpB.2.2.2.1.symm),
             (hpA.1).trans (hcg.2.2.1.trans hpB.1.symm),
             (hpA.2.1).trans (hcg.2.2.2.trans hpB.2.1.symm)⟩
    · rw [if_neg hb, if_neg hb]
      have hpA := close_phase_proj step3 (propagate_pending s) { c with close := x } false
      have hpB := close_phase_proj step3 (propagate_pending s) c false
      have hcg := close_phase_core_flags_congr step3 (propagate_pending s)
          { c with close := x } c false rfl rfl
      exact ⟨(hpA.2.2.1).trans (hcg.1.trans hpB.2.2.1.symm),
             (hpA.2.2.2.1).trans (hcg.2.1.trans hpB.2.2.2.1.symm),
             (hpA.1).trans (hcg.2.2.1.trans hpB.1.symm),
             (hpA.2.1).trans (hcg.2.2.2.trans hpB.2.1.symm)⟩

/-- The bar's trade events do not depend on the latched signals the bar
starts with. -/
theorem next_acts_signal_indep {I : Type} (step3 : I → ℚ → I × ℕ)
    (s : AdaptiveZeroLagEMA I) (c : Candle) (b b' : Bool) :
    (next step3 { s with buy_signal_prev := b, sell_signal_prev := b' } c).2
      = (next step3 s c).2 := by
  by_cases hw : s.bar_count + 1 ≤ s.warmup_bars
  · rw [next_unfold_warmup step3 { s with buy_signal_prev := b, sell_signal_prev := b' } c hw,
        next_unfold_warmup step3 s c hw]
  · have hw' : s.warmup_bars < s.bar_count + 1 := by omega
    rw [next_unfold step3 { s with buy_signal_prev := b, sell_signal_prev := b' } c hw',
        next_unfold step3 s c hw']
    split_ifs with hb1
    · have hrec : propagate_pending { s with buy_signal_prev := b, sell_signal_prev := b' }
          = { propagate_pending s with
              pending_buy := s.pending_buy || b
              pending_sell := s.pending_sell || b'
              buy_signal_prev := b
              sell_signal_prev := b' } := rfl
      rw [hrec]
      exact open_phase_acts_pending_indep (propagate_pending s) (s.pending_buy || b)
        (s.pending_sell || b') b b' c.open_p c.ts
    · rfl

/-- C6: bar N's close price — and with it the raw crossover computed at
bar N's close — cannot influence bar N itself: the bar's trade events
and its resulting pending and scheduled-entry flags are invariant under
any change of the close, so the crossover reaches the pending latch no
earlier than bar N+1 and the entry scheduler no earlier than bar N+1's
close; and the latched signals a bar starts with produce none of that
bar's trade events, so the entry a crossover causes is emitted no
earlier than the open of the second bar after it — never during bar N
or at bar N+1's open. -/
theorem signal_two_bar_delay {I : Type} (step3 : I → ℚ → I × ℕ)
    (s : AdaptiveZeroLagEMA I) (c : Candle) (x : ℚ) (b b' : Bool) :
    (next step3 s { c with close := x }).2 = (next step3 s c).2
  ∧ (next step3 s { c with close := x }).1.pending_buy = (next step3 s c).1.pending_buy
  ∧ (next step3 s { c with close := x }).1.pending_sell = (next step3 s c).1.pending_sell
  ∧ (next step3 s { c with close := x }).1.entry_scheduled_long
        = (next step3 s c).1.entry_scheduled_long
  ∧ (next step3 s { c with close := x }).1.entry_scheduled_short
        = (next step3 s c).1.entry_scheduled_short
  ∧ (next step3 { s with buy_signal_prev := b, sell_signal_prev := b' } c).2
        = (next step3 s c).2 :=
  ⟨next_acts_close_indep step3 s c x,
   (next_flags_close_indep step3 s c x).1,
   (next_flags_close_indep step3 s c x).2.1,
   (next_flags_close_indep step3 s c x).2.2.1,
   (next_flags_close_indep step3 s c x).2.2.2,
   next_acts_signal_indep step3 s c b b'⟩

end Dinheiro
